import Mathlib

/-!
# Shallow embedding of the clean-sheet-bot reconciliation core

This file embeds, in Lean 4, the parts of the repository's Python sources that
the verified properties talk about:

* `src/scripts/split_daily_budgets.py` — tolerant numeric parser `parse_number`
  and the calendar proration expander (`expandBudget`);
* `src/scripts/split_daily_plans.py` — parser `to_float_safe` and the plans
  expander (`expandPlans`);
* `src/scripts/dcqa_brand_two_pass.py` — text normalizer `norm`, alias index
  `build_index`, Pass A `passA`, Pass B `detect_from_titles`, and the per-row
  decision of `two_pass_brand` (`two_pass_row`);
* `src/scripts/run_cleaning.py` — the precedence fallback joiner instances
  `brands_map`, `vendors_map`, `campaigns_map`, and `fx_merge_and_derive`
  with its audit predicate.

Modelling conventions (stated once here, referenced below):
* pandas cell values are modelled by `Cell`: a missing value (`NaN`/`NaT`),
  a string, or a float modelled as an exact rational `ℚ` (spec tolerances
  "up to floating-point rounding" are idealized by exact `ℚ` arithmetic);
* dates are day numbers `ℤ` (a `pd.Timestamp` normalized to midnight);
  `pd.date_range(s, e, freq="D")` is the list of day numbers `s..e`
  (empty when `e < s`), which is exactly its length/content semantics;
* Unicode normalization (NFKC/NFKD) is modelled on the ASCII + NBSP domain on
  which it acts as the identity apart from NBSP ↦ space; accent stripping is
  likewise modelled as the identity for precomposed-ASCII input;
* per-record semantics: the pandas dataframe loops apply the same computation
  to each row independently, so every operation is embedded as a function of
  a single record; a left merge is embedded as "first matching reference row"
  (the repository's own design notes record first-match-by-table-order as the
  intended tie-break for duplicate reference matches);
* Python `str.strip` is `pyStrip` (ASCII whitespace and NBSP).
-/

/-- Python whitespace characters stripped by `str.strip()`, on the modelled
ASCII + NBSP domain. -/
def isPyWs (c : Char) : Bool :=
  c == ' ' || c == '\t' || c == '\n' || c == '\r' || c == Char.ofNat 160

/-- `str.strip()` on the modelled domain: drop leading and trailing
whitespace (including NBSP). -/
def pyStrip (s : String) : String :=
  String.mk (((s.data.dropWhile isPyWs).reverse.dropWhile isPyWs).reverse)

/-- A pandas cell as the scripts see one (`dtype="object"`): missing
(`NaN`/`NaT`/`None`), a string, or a float (modelled as `ℚ`). -/
inductive Cell where
  | na : Cell
  | str : String → Cell
  | num : ℚ → Cell
deriving DecidableEq, Repr

/-- Digits-to-number accumulator: the numeric value of a list of decimal
digit characters. -/
def digitsToNat (cs : List Char) : Nat :=
  cs.foldl (fun n c => n * 10 + (c.toNat - 48)) 0

/-- The value of a decimal literal split as integer digits and fraction
digits: `ip.fp` as an exact rational. -/
def decimalValue (ip fp : List Char) : ℚ :=
  (digitsToNat ip : ℚ) + (digitsToNat fp : ℚ) / (10 : ℚ) ^ fp.length

/-- Python `float(s)` on the modelled domain (optional sign, decimal digits,
at most one dot, at least one digit; surrounding whitespace allowed).
Exponent/`inf`/`nan`/underscore forms do not occur in the inputs the scripts
feed to `float` after their own character filtering and are outside the
modelled domain. Returns `none` where Python raises `ValueError`. -/
def pyFloat (x : String) : Option ℚ :=
  let cs := (pyStrip x).data
  let (neg, body) :=
    match cs with
    | '-' :: rest => (true, rest)
    | '+' :: rest => (false, rest)
    | _ => (false, cs)
  if body.all (fun c => c.isDigit || c == '.')
      && (body.filter (fun c => c == '.')).length ≤ 1
      && body.any Char.isDigit then
    let ip := body.takeWhile (fun c => c ≠ '.')
    let fp := (body.dropWhile (fun c => c ≠ '.')).drop 1
    some ((if neg then -1 else 1) * decimalValue ip fp)
  else
    none

/-- The placeholder tokens `split_daily_budgets.parse_number` treats as
missing: `("-", "—", "–", "NA", "N/A", "n/a", "na", "--")`. -/
def numPlaceholders : List String :=
  ["-", "—", "–", "NA", "N/A", "n/a", "na", "--"]

/-- `s.startswith("(") and s.endswith(")")` on the character list. -/
def parenWrapped (cs : List Char) : Bool :=
  (match cs with
   | '(' :: _ => true
   | _ => false) &&
  (match cs.getLast? with
   | some ')' => true
   | _ => false)

/-- The character class kept by the regex `[^\d\-\.\(\)]+ → ""` of
`split_daily_budgets.py` (digits, minus, dot, parentheses). -/
def numKeep (c : Char) : Bool :=
  c.isDigit || c == '-' || c == '.' || c == '(' || c == ')'

/-- NFKC normalization restricted to the modelled ASCII + NBSP domain:
NBSP becomes a plain space, everything else is unchanged. -/
def nfkcModel (s : String) : String :=
  String.mk (s.data.map (fun c => if c == Char.ofNat 160 then ' ' else c))

/-- `parse_number` of `split_daily_budgets.py` on a string: strip; empty →
missing; NFKC; drop NBSP; placeholder tokens → missing; strip every
character outside `[0-9.()-]`; empty → missing; `(x)` → `-x`; `float`. -/
def parse_number_str (x : String) : Option ℚ :=
  let s := pyStrip x
  if s = "" then none
  else
    let s := nfkcModel s
    let s := String.mk (s.data.filter (fun c => c ≠ Char.ofNat 160))
    if s ∈ numPlaceholders then none
    else
      let s := String.mk (s.data.filter numKeep)
      if s = "" then none
      else
        let s :=
          if parenWrapped s.data then
            "-" ++ String.mk ((s.data.drop 1).dropLast)
          else s
        pyFloat s

/-- `parse_number` of `split_daily_budgets.py` on a cell. A missing cell is
`None` (`pd.isna`); a float cell re-parses to its own value (`str(float)`
round-trips); a string cell goes through `parse_number_str`. Total: every
input yields a number or `none`, never an exception. -/
def parse_number : Cell → Option ℚ
  | .na => none
  | .num q => some q
  | .str s => parse_number_str s

/-- `s.replace(",", "")`: drop every comma. -/
def dropCommas (s : String) : String :=
  String.mk (s.data.filter (fun c => c ≠ ','))

/-- `to_float_safe` of `split_daily_plans.py`: missing is returned as-is;
otherwise drop commas, strip, try `float`; on failure return the original
value untouched. -/
def to_float_safe : Cell → Cell
  | .na => .na
  | .num q => .num q
  | .str s =>
      match pyFloat (pyStrip (dropCommas s)) with
      | some q => .num q
      | none => .str s

/-- `true` iff a cell is a number or a missing value — the shape the spec
asserts for every parser result. -/
def isNumOrNull : Cell → Bool
  | .str _ => false
  | _ => true

/-! ## Records and cell access

A record is an ordered association list of column name to cell, mirroring a
pandas row of an `object`-dtype frame. Assignment to an existing column
replaces it in place; assignment to a new column appends it, matching pandas
column-assignment semantics. -/

/-- A raw record row: ordered columns. -/
abbrev Cells := List (String × Cell)

/-- `row[c]` when the column exists. -/
def getCell? (r : Cells) (c : String) : Option Cell :=
  r.lookup c

/-- `row.get(c)` with missing columns reading as `NaN`. -/
def getCell (r : Cells) (c : String) : Cell :=
  (r.lookup c).getD .na

/-- `c in row.index`. -/
def hasCol (r : Cells) (c : String) : Bool :=
  (r.lookup c).isSome

/-- `row[c] = v` over any association list: replace in place if the column
exists, append otherwise (pandas column-assignment semantics). -/
def assocSet {α : Type} (r : List (String × α)) (c : String) (v : α) :
    List (String × α) :=
  if (r.lookup c).isSome then
    r.map (fun p => if p.1 = c then (c, v) else p)
  else
    r ++ [(c, v)]

/-- `row[c] = v` on cell records. -/
def setCell (r : Cells) (c : String) (v : Cell) : Cells :=
  assocSet r c v

/-! ## Calendar proration expanders -/

/-- Day number of Jan 1 of a (proleptic Gregorian) year, used by the
fiscal-year fallback `pd.Timestamp(y, 1, 1)`. -/
def jan1 (y : ℤ) : ℤ :=
  365 * (y - 1) + (y - 1).fdiv 4 - (y - 1).fdiv 100 + (y - 1).fdiv 400

/-- Day number of Dec 31 of a year (`pd.Timestamp(y, 12, 31)`). -/
def dec31 (y : ℤ) : ℤ :=
  jan1 (y + 1) - 1

/-- `pd.date_range(s, e, freq="D")` on normalized timestamps: the day
numbers `s, s+1, …, e`; empty when `e < s`. -/
def rangeDays (s e : ℤ) : List ℤ :=
  (List.range (e - s + 1).toNat).map (fun k => s + Int.ofNat k)

/-- A record of `budgets_cleaned.xlsx` after the script's own
`pd.to_datetime(…, errors="coerce")` on the start/end columns and the
`int(float(str(fy)))` attempt on the FX-year column: `none` marks `NaT`
respectively a failed year parse (the `except` branch). All other columns
stay raw in `cells`. -/
structure BudgetRow where
  startDate? : Option ℤ
  endDate? : Option ℤ
  fxYear? : Option ℤ
  cells : Cells
deriving Repr

/-- An emitted daily row: the inserted `Date` column (`none` = `NaT`) plus
the (possibly prorated) remaining columns. -/
structure DayRow where
  date? : Option ℤ
  cells : Cells
deriving Repr, DecidableEq

/-- The proration loop of `split_daily_budgets.main` (lines 127–132): for
each configured column, `parse_number`; `None` becomes `0.0`, otherwise the
value is divided by the day count. -/
def prorateBudgetCells (prorateCols : List String) (n : ℕ) (cs : Cells) : Cells :=
  prorateCols.foldl
    (fun acc col =>
      match parse_number (getCell acc col) with
      | none => setCell acc col (.num 0)
      | some v => setCell acc col (.num (v / (n : ℚ))))
    cs

/-- The zero-fill of the no-dates fallback branch of
`split_daily_budgets.main` (lines 106–109): every prorated column forced
to `0.0`. -/
def zeroFillCells (prorateCols : List String) (cs : Cells) : Cells :=
  prorateCols.foldl (fun acc col => setCell acc col (.num 0)) cs

/-- The review-collection test of the fallback branch (line 113):
`orig_planned not in (None, "", pd.NA) and str(orig_planned).strip() != ""`.
Python tuple membership evaluates `x is e or bool(x == e)` per element;
comparing a string or float to `pd.NA` propagates `NA`, and coercing `NA`
to bool raises `TypeError`. The test therefore completes — returning
`False`, so no collection — only when the planned column is absent
(`orig_planned = None`) or its value is the empty string; for every
other value, missing `NaN` cells included, line 113 raises, modelled as
`none` (the run aborts). `some true` is unreachable on this cell domain,
so a completing run never collects a record. -/
def plannedReviewTest (plannedCol : String) (cs : Cells) : Option Bool :=
  match getCell? cs plannedCol with
  | none => some false
  | some (.str s) => if s = "" then some false else none
  | some _ => none

/-- Per-record body of `split_daily_budgets.main` (lines 95–143): valid
dates prorate and emit one row per day in the inclusive range; missing
dates fall back to Jan 1 – Dec 31 of the FX year; if that also fails, one
pass-through row with `Date = NaT` and zero-filled prorated columns is
emitted, after which the review-collection test of line 113 runs.
Returns (emitted rows, debug outcome): the second component is `some`
the collected debug rows when the test completes, and `none` when
line 113 raises `TypeError` (see `plannedReviewTest`), which aborts the
whole run after the row was appended. -/
def expandBudget (prorateCols : List String) (plannedCol : String)
    (r : BudgetRow) : List DayRow × Option (List Cells) :=
  let se? : Option (ℤ × ℤ) :=
    match r.startDate?, r.endDate? with
    | some s, some e => some (s, e)
    | _, _ => r.fxYear?.map (fun y => (jan1 y, dec31 y))
  match se? with
  | some (s, e) =>
      let days := rangeDays s e
      let n := max 1 days.length
      let base := prorateBudgetCells prorateCols n r.cells
      (days.map (fun d => ⟨some d, base⟩), some [])
  | none =>
      (⟨[⟨none, zeroFillCells prorateCols r.cells⟩],
        (plannedReviewTest plannedCol r.cells).map
          (fun b => if b then [r.cells] else [])⟩)

/-- A record of `plans_cleaned.xlsx` after `pd.to_datetime(…,
errors="coerce")` on `Start_Date`/`End_Date`. -/
structure PlanRow where
  startDate? : Option ℤ
  endDate? : Option ℤ
  cells : Cells
deriving Repr

/-- Division step of `split_daily_plans.main` (lines 72–76): after
`to_float_safe`, divide when the value is a number (`isinstance(…,
(int, float))`; a `NaN` float divides to `NaN`), leave strings untouched. -/
def divPlanCell (c : Cell) (n : ℕ) : Cell :=
  match c with
  | .num q => .num (q / (n : ℚ))
  | .na => .na
  | .str s => .str s

/-- Per-record body of `split_daily_plans.main` (lines 52–81): records with
a missing start or end date emit exactly one pass-through row with
`Date = NaT` and **unchanged** cell values (no zero-fill, no fiscal-year
fallback); otherwise each present configured column is parsed with
`to_float_safe`, divided by the day count when numeric, and one row per
day in the inclusive range is emitted. -/
def expandPlans (prorateCols : List String) (r : PlanRow) : List DayRow :=
  match r.startDate?, r.endDate? with
  | some s, some e =>
      let days := rangeDays s e
      let n := max 1 days.length
      let base := prorateCols.foldl
        (fun acc col =>
          if hasCol acc col then
            setCell acc col (divPlanCell (to_float_safe (getCell acc col)) n)
          else acc)
        r.cells
      days.map (fun d => ⟨some d, base⟩)
  | _, _ => [⟨none, r.cells⟩]

/-- Numeric reading of a cell for summation (a prorated cell is always
written as `.num`). -/
def cellNum : Cell → ℚ
  | .num q => q
  | _ => 0

/-! ## Two-pass brand resolver (`dcqa_brand_two_pass.py`) -/

/-- The punctuation glyphs `_PUNCT` of `dcqa_brand_two_pass.py`, each
translated to a space by `norm`. (Backtick and braces are written via
`Char.ofNat` code points 96, 123, 125.) -/
def punctChars : List Char :=
  ['“', '”', '‘', '’', '′', '´', Char.ofNat 96, '\"', '\\', '\'', '–', '—',
   '‑', '-', '·', '•', '.', ',', ';', ':', '!', '/', '?', '(', ')', '[', ']',
   Char.ofNat 123, Char.ofNat 125, '|', '+', '&', '@', '#', '%', '^', '*',
   '~', '=', '_']

/-- The `_SPECIALS` table: trademark glyphs are deleted, NBSP becomes a
space. -/
def applySpecials (s : String) : String :=
  String.mk ((s.data.filter (fun c => c ∉ ['™', '®', '©', '℠'])).map
    (fun c => if c == Char.ofNat 160 then ' ' else c))

/-- `_strip_accents`: NFKD plus removal of combining marks, modelled as the
identity on the precomposed-ASCII domain of the verified inputs. -/
def stripAccentsModel (s : String) : String := s

/-- Collapse consecutive spaces to one (helper for the whitespace-run
regex). -/
def dedupSpaces : List Char → List Char
  | [] => []
  | [c] => [c]
  | a :: b :: rest =>
      if a = ' ' && b = ' ' then dedupSpaces (b :: rest)
      else a :: dedupSpaces (b :: rest)

/-- Collapse every whitespace run to a single space and trim
(`re.sub(r"\s+", " ", s).strip()`). -/
def collapseWs (s : String) : String :=
  pyStrip (String.mk (dedupSpaces (s.data.map (fun c => if c.isWhitespace then ' ' else c))))

/-- ASCII case folding (`str.casefold` on the modelled domain). -/
def foldCase (s : String) : String :=
  String.mk (s.data.map Char.toLower)

/-- `norm` of `dcqa_brand_two_pass.py`: specials, accent strip, punctuation
to spaces, casefold, whitespace collapse and trim. `None` input is modelled
by `""` (both return `""`). -/
def norm (s : String) : String :=
  collapseWs (foldCase (String.mk ((stripAccentsModel (applySpecials s)).data.map
    (fun c => if c ∈ punctChars then ' ' else c))))

/-- A row of the brands taxonomy (`brands.csv` after `load_brands_taxonomy`:
all three columns as strings). -/
structure BrandRefRow where
  brand_canonical : String
  market : String
  aliasText : String
deriving Repr

/-- Alias-index key: scope (`none` = global, `some m` = normalized market)
and normalized alias text. -/
abbrev IdxKey := Option String × String

/-- The alias index: insertion-ordered association list; lookups return the
first (and only) binding for a key. -/
abbrev Idx := List (IdxKey × String)

/-- `idx[key] if key in idx` — dictionary lookup. -/
def lookupIdx (idx : Idx) (k : IdxKey) : Option String :=
  idx.lookup k

/-- Dictionary insert-if-absent (`if key not in idx: idx[key] = v` and
`idx.setdefault(key, v)` coincide): first-seen wins, insertion order kept. -/
def insertIfAbsent (idx : Idx) (k : IdxKey) (v : String) : Idx :=
  if (idx.lookup k).isSome then idx else idx ++ [(k, v)]

/-- Ordered insertion into a string list used as a set (`canons.add`). -/
def insertCanon (l : List String) (c : String) : List String :=
  if c ∈ l then l else l ++ [c]

/-- Insertion sort on strings (`sorted(canons)`; the element set is
duplicate-free, so any sort agrees with Python's). -/
def insertSorted (x : String) : List String → List String
  | [] => [x]
  | y :: ys => if x ≤ y then x :: y :: ys else y :: insertSorted x ys

/-- `sorted` on a list of strings. -/
def sortStrings (l : List String) : List String :=
  l.foldr insertSorted []

/-- `build_index` of `dcqa_brand_two_pass.py` (lines 66–89): for every
taxonomy row, register the alias (falling back to the canonical when the
alias strips to empty) and the canonical itself, at global scope and — when
the row has a market — at market scope, each insert-if-absent. Returns the
index and the sorted canonical set. -/
def build_index (rows : List BrandRefRow) : Idx × List String :=
  let st := rows.foldl
    (fun (st : Idx × List String) r =>
      let canon := pyStrip r.brand_canonical
      let alias0 := pyStrip r.aliasText
      let aliasV := if alias0 = "" then canon else alias0
      let market := pyStrip r.market
      if canon = "" then st
      else
        let canons := insertCanon st.2 canon
        let idx := insertIfAbsent st.1 (none, norm aliasV) canon
        let idx := if market ≠ "" then insertIfAbsent idx (some (norm market), norm aliasV) canon else idx
        let idx := insertIfAbsent idx (none, norm canon) canon
        let idx := if market ≠ "" then insertIfAbsent idx (some (norm market), norm canon) canon else idx
        (idx, canons))
    ([], [])
  (st.1, sortStrings st.2)

/-- Python string truthiness of a normalized market: `m or None`. -/
def mOrNone (m : String) : Option String :=
  if m = "" then none else some m

/-- Pass A of `two_pass_brand` (lines 159–171): market-scoped lookup, then
global lookup, then direct equality of the normalized brand to a canonical
(first canonical in sorted order wins). Returns the mapped brand and the
reason tier. -/
def passA (idx : Idx) (canons : List String) (brand market : String) :
    Option String × String :=
  let b := norm brand
  let m := norm market
  match lookupIdx idx (mOrNone m, b) with
  | some v => (some v, "tax_exact_local")
  | none =>
    match lookupIdx idx (none, b) with
    | some v => (some v, "tax_exact_global")
    | none =>
      match canons.find? (fun c => norm c == b) with
      | some c => (some c, "tax_canonical_equal")
      | none => (none, "")

/-- `p.isPrefixOf l` on character lists, written out structurally. -/
def listStartsWith : List Char → List Char → Bool
  | [], _ => true
  | _ :: _, [] => false
  | a :: as, b :: bs => a == b && listStartsWith as bs

/-- Substring containment (`needle in haystack` on Python strings). -/
def hasSubstrList (hay needle : List Char) : Bool :=
  match hay with
  | [] => needle.isEmpty
  | _ :: rest => listStartsWith needle hay || hasSubstrList rest needle

/-- `needle in haystack` for strings. -/
def strContains (hay needle : String) : Bool :=
  hasSubstrList hay.data needle.data

/-- Deduplicate preserving first occurrence (the `seen` loop of
`detect_from_titles`). -/
def dedupKeepOrder (l : List String) : List String :=
  (l.foldl (fun acc c => insertCanon acc c) [])

/-- Stable longest pick: `sorted(seen, key=len, reverse=True)[0]` — the
first element of maximal length (Python's sort is stable). -/
def longestFirst (h : String) (t : List String) : String :=
  t.foldl (fun best s => if best.length < s.length then s else best) h

/-- `detect_from_titles` of `dcqa_brand_two_pass.py` (lines 92–123):
normalize the concatenated titles; collect canonical names (length ≥ 4)
contained in the text, then aliases (market-local keys before global keys,
length ≥ 4), each alias resolved through the index market-first; dedup the
hit canons preserving order; a single distinct canon is returned with its
first reason, several yield the longest canon tagged `title_ambiguous`. -/
def detect_from_titles (plan_name campaign_name market : String)
    (idx : Idx) (canon_list : List String) : Option String × String :=
  let t := norm (plan_name ++ " " ++ campaign_name)
  let m := norm market
  let canonHits := canon_list.filterMap
    (fun canon =>
      let nc := norm canon
      if nc ≠ "" && strContains t nc && nc.length ≥ 4 then
        some (canon, "title_contains_canon")
      else none)
  let localAliases := idx.filterMap
    (fun kv => if kv.1.1 == mOrNone m then some kv.1.2 else none)
  let globalAliases := idx.filterMap
    (fun kv => if kv.1.1 == none then some kv.1.2 else none)
  let aliasHits := (localAliases ++ globalAliases).filterMap
    (fun a =>
      if a ≠ "" && strContains t a && a.length ≥ 4 then
        let key : IdxKey :=
          if (lookupIdx idx (some m, a)).isSome then (some m, a) else (none, a)
        some ((lookupIdx idx key).getD "", "title_contains_alias")
      else none)
  let hits := canonHits ++ aliasHits
  if hits.isEmpty then (none, "")
  else
    let seen := dedupKeepOrder (hits.map Prod.fst)
    match seen with
    | [] => (none, "")
    | [c] => (some c, ((hits.find? (fun h => h.1 == c)).map Prod.snd).getD "")
    | c :: cs => (some (longestFirst c cs), "title_ambiguous")

/-- The per-record result row built by `two_pass_brand` (lines 194–206). -/
structure BrandResult where
  brand_raw : String
  market : String
  plan_name : String
  campaign_name : String
  brand_taxonomy : String
  brand_title : String
  brand_final : String
  reason_tax : String
  reason_title : String
  issue : String
  recommendation : String
deriving Repr, DecidableEq

/-- Per-record decision of `two_pass_brand` (lines 150–206): run Pass A and
Pass B, choose `final = mapped or title_brand or ''` (Python string
truthiness), and classify the issue by the four-way `if/elif` chain; when
both signals agree no issue is recorded. -/
def two_pass_row (idx : Idx) (canons : List String)
    (brand market plan camp : String) : BrandResult :=
  let a := passA idx canons brand market
  let b := detect_from_titles plan camp market idx canons
  let mappedS := a.1.getD ""
  let titleS := b.1.getD ""
  let final := if mappedS ≠ "" then mappedS else if titleS ≠ "" then titleS else ""
  let issueRec : String × String :=
    if mappedS ≠ "" && titleS ≠ "" && mappedS ≠ titleS then
      ("brand_conflict_title",
       "Check Market/Brand. Taxonomy maps to one brand, titles suggest another.")
    else if mappedS = "" && titleS ≠ "" then
      ("brand_inferred_from_title",
       "Consider the title brand. Add alias to taxonomy if correct.")
    else if mappedS ≠ "" && titleS = "" then
      ("brand_ok_no_title_signal", "")
    else if mappedS = "" && titleS = "" then
      ("brand_unmapped", "Add alias to taxonomy or fix Brand field.")
    else ("", "")
  { brand_raw := brand
    market := market
    plan_name := plan
    campaign_name := camp
    brand_taxonomy := mappedS
    brand_title := titleS
    brand_final := final
    reason_tax := a.2
    reason_title := b.2
    issue := issueRec.1
    recommendation := issueRec.2 }

/-! ## Precedence fallback joiner and FX engine (`run_cleaning.py`)

The mapping stages operate on string-typed columns (raw records post
`astype(str)` where the code applies it, reference tables read with
`dtype=str` and `fillna("")`), so a record here is an ordered association
list of column name to string. The conflict-hints block of `brands_map`
only appends QA events and drops its temporary column, leaving the record
unchanged; it is not embedded since no claim concerns it. -/

/-- A string-typed record row / reference row of the mapping stages. -/
abbrev Rec := List (String × String)

/-- Column read with pandas' missing-column default `""`. -/
def getCol (r : Rec) (c : String) : String :=
  (r.lookup c).getD ""

/-- `c in df.columns`. -/
def hasColS (r : Rec) (c : String) : Bool :=
  (r.lookup c).isSome

/-- Column assignment on string records: replace in place or append. -/
def setCol (r : Rec) (c : String) (v : String) : Rec :=
  assocSet r c v

/-- `for c in cols: if c not in df.columns: df[c] = ""`. -/
def ensureCols (cols : List String) (r : Rec) : Rec :=
  cols.foldl (fun acc c => if hasColS acc c then acc else setCol acc c "") r

/-- Reference-table preparation: for each listed column, ensure it exists
and strip it (`if c not in b.columns: b[c]=""` then `.str.strip()`). -/
def prepRefCols (cols : List String) (row : Rec) : Rec :=
  cols.foldl (fun acc c => setCol acc c (pyStrip (getCol acc c))) row

/-- An exception-ledger event (`qa_event` of `run_cleaning.py`; the
row-context fields carried are those the verified properties use). -/
structure QaEvent where
  market : String
  planId : String
  planName : String
  field : String
  issueType : String
  current : String
  suggested : String
  priority : String
  owner : String
deriving Repr, DecidableEq

/-- `qa_event(row, field, issue, current, suggested, owner, priority)`:
build one event carrying the record's Market / Plan ID / Plan Name
context. -/
def qa_event (r : Rec) (field issue current suggested owner priority : String) :
    QaEvent :=
  { market := getCol r "Market"
    planId := getCol r "Plan ID"
    planName := getCol r "Plan Name"
    field := field
    issueType := issue
    current := current
    suggested := suggested
    priority := priority
    owner := owner }

/-- The first reference row matching a key-set: for each configured key,
the record's designated left column must equal the reference row's column
exactly. Embeds the left merge (first match by reference-table order). -/
def findMatch (refRows : List Rec) (rec : Rec) (keys : List String)
    (leftOf : String → String) : Option Rec :=
  refRows.find? (fun rr => keys.all (fun k => getCol rec (leftOf k) == getCol rr k))

/-- One pass of the output-filling loop: for each configured
`(source column, target column)` pair in order, fill the target while it is
still blank with the matched row's source value (an absent match is the
all-blank row `[]`, matching `m[src].fillna("")` on a missed merge). -/
def applyOutputs (outputs : List (String × String)) (rr : Rec) (rec : Rec) : Rec :=
  outputs.foldl
    (fun acc p =>
      if pyStrip (getCol acc p.2) = "" then setCol acc p.2 (getCol rr p.1) else acc)
    rec

/-- The precedence fold of the joiner instances (shared shape of
`brands_map` and `campaigns_map`): one `applyOutputs` per key-set, the
matched row defaulting to the all-blank row. -/
def rulesFold (outputs : List (String × String)) (b : List Rec)
    (leftOf : String → String) (rules : List (List String)) (acc : Rec) : Rec :=
  rules.foldl
    (fun acc keys => applyOutputs outputs ((findMatch b acc keys leftOf).getD []) acc)
    acc

/-- Left-column renaming of `brands_map` (`raw_brand → _raw_brand` etc.). -/
def brandsLeftOf (k : String) : String :=
  if k = "raw_brand" then "_raw_brand"
  else if k = "raw_variant" then "_raw_variant"
  else if k = "market" then "_market"
  else k

/-- Target columns `brands_map` guarantees to exist. -/
def brandsEnsured : List String :=
  ["Brand_clean", "Brand_Type", "Category_clean", "SubCategory_clean", "Variant_clean"]

/-- Reference columns `brands_map` normalizes on the taxonomy side. -/
def brandsRefCols : List String :=
  ["raw_brand", "raw_variant", "market", "region", "brand_clean", "brand_type",
   "variant", "category", "subcategory"]

/-- The record preparation of `brands_map` (lines 122–129): ensure the
`*_clean` targets and add the stripped helper key columns. -/
def brandsPrep (rec : Rec) : Rec :=
  let r := ensureCols brandsEnsured rec
  let r := setCol r "_raw_brand" (pyStrip (getCol rec "Brand"))
  let r := setCol r "_raw_variant" (pyStrip (getCol rec "Variant"))
  setCol r "_market" (pyStrip (getCol rec "Market"))

/-- `brands_map` of `run_cleaning.py` (lines 119–174), per record: prepare,
then for each precedence key-set in order merge against the prepared
taxonomy and fill still-blank targets; finally report `brand_unmapped`
(P2) when `Brand_clean` is still blank. -/
def brands_map (precedence : List (List String)) (outputs : List (String × String))
    (refRows : List Rec) (rec : Rec) : Rec × List QaEvent :=
  let recF := rulesFold outputs (refRows.map (prepRefCols brandsRefCols)) brandsLeftOf
    precedence (brandsPrep rec)
  let events :=
    if pyStrip (getCol recF "Brand_clean") = "" then
      [qa_event recF "Brand" "brand_unmapped" (getCol recF "Brand") "" "Analytics" "P2"]
    else []
  (recF, events)

/-- Left-column renaming of `campaigns_map`. -/
def campaignsLeftOf (k : String) : String :=
  if k = "raw_campaign" then "_raw_campaign"
  else if k = "market" then "_market"
  else if k = "brand" then "_brand"
  else k

/-- Reference columns `campaigns_map` normalizes. -/
def campaignsRefCols : List String :=
  ["raw_campaign", "raw_plan_name", "market", "brand", "campaign_clean",
   "campaign_type", "campaign_subtype"]

/-- Record preparation of `campaigns_map` (lines 178–183). -/
def campaignsPrep (rec : Rec) : Rec :=
  let r := ensureCols ["Campaign_clean", "Campaign_Type", "Campaign_SubType"] rec
  let r := setCol r "_raw_campaign" (pyStrip (getCol rec "Campaign Name"))
  let r := setCol r "_market" (pyStrip (getCol rec "Market"))
  setCol r "_brand" (pyStrip (getCol rec "Brand_clean"))

/-- The merge/fill stage of `campaigns_map` (before the raw-name
fallback). -/
def campaignsJoined (precedence : List (List String)) (outputs : List (String × String))
    (refRows : List Rec) (rec : Rec) : Rec :=
  rulesFold outputs (refRows.map (prepRefCols campaignsRefCols)) campaignsLeftOf
    precedence (campaignsPrep rec)

/-- `campaigns_map` of `run_cleaning.py` (lines 176–217), per record: the
precedence merge loop, then — for records whose `Campaign_clean` is still
blank — fall back to the raw `Campaign Name` and report
`campaign_unmapped` (P3). -/
def campaigns_map (precedence : List (List String)) (outputs : List (String × String))
    (refRows : List Rec) (rec : Rec) : Rec × List QaEvent :=
  let recF := campaignsJoined precedence outputs refRows rec
  if pyStrip (getCol recF "Campaign_clean") = "" then
    (setCol recF "Campaign_clean" (getCol recF "Campaign Name"),
     [qa_event recF "Campaign Name" "campaign_unmapped" (getCol recF "Campaign Name")
        "" "Analytics" "P3"])
  else (recF, [])

/-- The fixed output pairs of `vendors_map` (line 231). -/
def vendorsOutputs : List (String × String) :=
  [("vendor_clean", "Vendor_clean"), ("vendor_house", "Vendor_House"),
   ("vendor_type", "Vendor_Type")]

/-- Reference columns `vendors_map` normalizes. -/
def vendorsRefCols : List String :=
  ["raw_vendor", "vendor_clean", "vendor_house", "vendor_type"]

/-- Target columns `vendors_map` guarantees to exist. -/
def vendorsEnsured : List String :=
  ["Vendor_clean", "Vendor_House", "Vendor_Type"]

/-- Record preparation of `vendors_map` (lines 220–224). -/
def vendorsPrep (rec : Rec) : Rec :=
  setCol (ensureCols vendorsEnsured rec) "_raw_vendor" (pyStrip (getCol rec "Vendor"))

/-- The single merge/fill stage of `vendors_map` (lines 230–238). -/
def vendorsJoined (refRows : List Rec) (rec : Rec) : Rec :=
  applyOutputs vendorsOutputs
    ((findMatch (refRows.map (prepRefCols vendorsRefCols)) (vendorsPrep rec)
        ["raw_vendor"] (fun _ => "_raw_vendor")).getD [])
    (vendorsPrep rec)

/-- `vendors_map` of `run_cleaning.py` (lines 219–244), per record: ensure
targets, add `_raw_vendor`, single merge on `raw_vendor`, fill still-blank
targets; records with `Vendor_clean` still blank get the literal
`"_Placeholder"` and a `vendor_unmapped` (P2) event suggesting it. -/
def vendors_map (refRows : List Rec) (rec : Rec) : Rec × List QaEvent :=
  let recF := vendorsJoined refRows rec
  if pyStrip (getCol recF "Vendor_clean") = "" then
    (setCol recF "Vendor_clean" "_Placeholder",
     [qa_event recF "Vendor" "vendor_unmapped" (getCol recF "Vendor") "_Placeholder"
        "Partnerships" "P2"])
  else (recF, [])

/-! ### FX reconciliation -/

/-- Uppercasing (`str.upper()` on the modelled domain). -/
def upperStr (s : String) : String :=
  String.mk (s.data.map Char.toUpper)

/-- Lowercasing (`str.lower()`). -/
def lowerStr (s : String) : String :=
  String.mk (s.data.map Char.toLower)

/-- A row of `fx_rates.csv` (read `dtype=str`, missing as `""`). -/
structure FxRate where
  market : String
  currency : String
  fx_year : String
  fx_to_eur : String
  fx_to_dkk : String
deriving Repr

/-- A record entering `fx_merge_and_derive`: the stripped/uppercased merge
keys are derived from the raw `Market`/`Currency`/`FX_Year` strings; the
monetary columns stay as cells. -/
structure FxRec where
  market : String
  currency : String
  fxYear : String
  cells : Cells
deriving Repr

/-- `pd.to_numeric(x, errors="coerce")` on a cell: numbers pass through,
strings parse as floats or coerce to `NaN`, missing stays missing. -/
def toNumericCell : Cell → Option ℚ
  | .na => none
  | .num q => some q
  | .str s => pyFloat s

/-- The result of `fx_merge_and_derive` for one record: the two rate
columns (`none` = `NaN`), the updated cells and the appended events. -/
structure FxResult where
  fxToEur? : Option ℚ
  fxToDkk? : Option ℚ
  cells : Cells
  events : List QaEvent
deriving Repr

/-- The `fx_missing` event appended by `fx_merge_and_derive` (line 354):
high priority, current value `market/currency/year`. -/
def fx_missing_event (rec : FxRec) : QaEvent :=
  { market := rec.market
    planId := ""
    planName := ""
    field := "FX"
    issueType := "fx_missing"
    current := rec.market ++ "/" ++ rec.currency ++ "/" ++ rec.fxYear
    suggested := ""
    priority := "P1"
    owner := "Analytics" }

/-- `fx_merge_and_derive` of `run_cleaning.py` (lines 332–363), per record:
left-merge the rate table on (stripped market, stripped upper-cased
currency, stripped year); coerce the two rate strings to numbers (`NaN` on
miss or unparseable text); append a `fx_missing` (P1) event when either
rate is `NaN`; then, for each configured currency pair-list, compute every
derived column as `to_numeric(local).fillna(0) * rate` where the rate
itself is `fillna(0)` — a missing rate therefore derives `0`. -/
def fx_merge_and_derive (fxTable : List FxRate)
    (pairs : List (String × List (String × String))) (rec : FxRec) : FxResult :=
  let mkt := pyStrip rec.market
  let cur := upperStr (pyStrip rec.currency)
  let yr := pyStrip rec.fxYear
  let hit? := fxTable.find? (fun f =>
    pyStrip f.market == mkt && upperStr (pyStrip f.currency) == cur
      && pyStrip f.fx_year == yr)
  let fxe := hit?.bind (fun f => pyFloat f.fx_to_eur)
  let fxd := hit?.bind (fun f => pyFloat f.fx_to_dkk)
  let events :=
    if fxe.isNone || fxd.isNone then [fx_missing_event rec]
    else []
  let cells := pairs.foldl
    (fun cs p =>
      let rate := (if lowerStr p.1 = "dkk" then fxd else fxe).getD 0
      p.2.foldl
        (fun cs2 lp =>
          if hasCol cs2 lp.1 then
            setCell cs2 lp.2 (.num ((toNumericCell (getCell cs2 lp.1)).getD 0 * rate))
          else cs2)
        cs)
    rec.cells
  { fxToEur? := fxe, fxToDkk? := fxd, cells := cells, events := events }

/-- The audit predicate of `fx_merge_and_derive` (line 378): a record is
flagged for a (reported, computed) column pair when the reported value is
positive and `|reported − computed| / where(reported ≠ 0, reported, 1)`
exceeds the tolerance. Inputs are the `to_numeric(…).fillna(0)` values. -/
def fxAuditFlag (tol given calcv : ℚ) : Bool :=
  given > 0 && |given - calcv| / (if given ≠ 0 then given else 1) > tol

/-! ## Association-list lemmas -/

theorem lookup_cons_pair {α : Type} (k c : String) (w : α) (t : List (String × α)) :
    ((k, w) :: t).lookup c = if k = c then some w else t.lookup c := by
  by_cases hk : k = c
  · subst hk; simp [List.lookup]
  · have hb : (c == k) = false := by simp [Ne.symm hk]
    simp [List.lookup, hb, hk]

theorem lookup_map_replace {α : Type} (r : List (String × α)) (c : String) (v : α)
    (h : (r.lookup c).isSome = true) :
    (r.map (fun p => if p.1 = c then (c, v) else p)).lookup c = some v := by
  induction r with
  | nil => simp [List.lookup] at h
  | cons p t ih =>
    obtain ⟨k, w⟩ := p
    by_cases hk : k = c
    · simp [hk, lookup_cons_pair]
    · rw [lookup_cons_pair, if_neg hk] at h
      simp only [List.map_cons, if_neg hk]
      rw [lookup_cons_pair, if_neg hk]
      exact ih h

theorem lookup_append_single {α : Type} (r : List (String × α)) (c : String) (v : α)
    (h : r.lookup c = none) :
    (r ++ [(c, v)]).lookup c = some v := by
  induction r with
  | nil => simp [lookup_cons_pair]
  | cons p t ih =>
    obtain ⟨k, w⟩ := p
    by_cases hk : k = c
    · rw [lookup_cons_pair, if_pos hk] at h; exact absurd h (by simp)
    · rw [lookup_cons_pair, if_neg hk] at h
      rw [List.cons_append, lookup_cons_pair, if_neg hk]
      exact ih h

theorem lookup_assocSet_self {α : Type} (r : List (String × α)) (c : String) (v : α) :
    (assocSet r c v).lookup c = some v := by
  cases hv : r.lookup c with
  | some w =>
      have h : (r.lookup c).isSome = true := by simp [hv]
      simp only [assocSet, hv, Option.isSome_some, if_true]
      exact lookup_map_replace r c v h
  | none =>
      simp only [assocSet, hv, Option.isSome_none, Bool.false_eq_true, if_false]
      exact lookup_append_single r c v hv

theorem lookup_map_replace_ne {α : Type} (r : List (String × α)) (c c' : String) (v : α)
    (hne : c' ≠ c) :
    (r.map (fun p => if p.1 = c then (c, v) else p)).lookup c' = r.lookup c' := by
  induction r with
  | nil => simp
  | cons p t ih =>
    obtain ⟨k, w⟩ := p
    by_cases hk : k = c
    · simp only [List.map_cons, if_pos hk]
      rw [lookup_cons_pair, lookup_cons_pair, if_neg (Ne.symm hne),
          if_neg (by rw [hk]; exact Ne.symm hne)]
      exact ih
    · simp only [List.map_cons, if_neg hk]
      rw [lookup_cons_pair, lookup_cons_pair]
      by_cases hkc : k = c'
      · simp [hkc]
      · rw [if_neg hkc, if_neg hkc]; exact ih

theorem lookup_append_single_ne {α : Type} (r : List (String × α)) (c c' : String) (v : α)
    (hne : c' ≠ c) :
    (r ++ [(c, v)]).lookup c' = r.lookup c' := by
  induction r with
  | nil => simp [lookup_cons_pair, if_neg (Ne.symm hne)]
  | cons p t ih =>
    obtain ⟨k, w⟩ := p
    rw [List.cons_append, lookup_cons_pair, lookup_cons_pair]
    by_cases hkc : k = c'
    · simp [hkc]
    · rw [if_neg hkc, if_neg hkc]; exact ih

theorem lookup_assocSet_ne {α : Type} (r : List (String × α)) (c c' : String) (v : α)
    (hne : c' ≠ c) :
    (assocSet r c v).lookup c' = r.lookup c' := by
  cases hv : r.lookup c with
  | some w =>
      simp only [assocSet, hv, Option.isSome_some, if_true]
      exact lookup_map_replace_ne r c c' v hne
  | none =>
      simp only [assocSet, hv, Option.isSome_none, Bool.false_eq_true, if_false]
      exact lookup_append_single_ne r c c' v hne

theorem getCol_setCol_self (r : Rec) (c v : String) :
    getCol (setCol r c v) c = v := by
  simp [getCol, setCol, lookup_assocSet_self]

theorem getCol_setCol_ne (r : Rec) (c c' v : String) (hne : c' ≠ c) :
    getCol (setCol r c v) c' = getCol r c' := by
  simp [getCol, setCol, lookup_assocSet_ne r c c' v hne]

theorem lookup_setCol_ne (r : Rec) (c c' v : String) (hne : c' ≠ c) :
    (setCol r c v).lookup c' = r.lookup c' :=
  lookup_assocSet_ne r c c' v hne

theorem getCell_setCell_self (r : Cells) (c : String) (v : Cell) :
    getCell (setCell r c v) c = v := by
  simp [getCell, setCell, lookup_assocSet_self]

theorem getCell_setCell_ne (r : Cells) (c c' : String) (v : Cell) (hne : c' ≠ c) :
    getCell (setCell r c v) c' = getCell r c' := by
  simp [getCell, setCell, lookup_assocSet_ne r c c' v hne]

/-! ## Proration lemmas -/

theorem prorate_notmem (cols : List String) (n : ℕ) (cs : Cells) (col : String)
    (h : col ∉ cols) :
    getCell (prorateBudgetCells cols n cs) col = getCell cs col := by
  induction cols generalizing cs with
  | nil => rfl
  | cons c t ih =>
    have hc : col ≠ c := fun hh => h (hh ▸ List.mem_cons_self c t)
    have ht : col ∉ t := fun hh => h (List.mem_cons_of_mem c hh)
    simp only [prorateBudgetCells, List.foldl_cons] at ih ⊢
    cases hp : parse_number (getCell cs c) <;>
      simp only [hp] <;> rw [ih _ ht] <;> exact getCell_setCell_ne cs c col _ hc

theorem getCell_prorate_mem (cols : List String) (n : ℕ) (cs : Cells) (col : String)
    (hnd : cols.Nodup) (hm : col ∈ cols) :
    getCell (prorateBudgetCells cols n cs) col =
      (match parse_number (getCell cs col) with
       | none => Cell.num 0
       | some v => Cell.num (v / (n : ℚ))) := by
  induction cols generalizing cs with
  | nil => cases hm
  | cons c t ih =>
    rcases List.mem_cons.mp hm with h1 | h2
    · subst h1
      have ht : col ∉ t := (List.nodup_cons.mp hnd).1
      simp only [prorateBudgetCells, List.foldl_cons]
      cases hp : parse_number (getCell cs col) <;> simp only [hp] <;>
        · rw [show List.foldl _ _ t = prorateBudgetCells t n _ from rfl,
              prorate_notmem t n _ col ht, getCell_setCell_self]
    · have hnd' := (List.nodup_cons.mp hnd).2
      have hc : col ≠ c := by
        rintro rfl; exact (List.nodup_cons.mp hnd).1 h2
      simp only [prorateBudgetCells, List.foldl_cons]
      cases hp : parse_number (getCell cs c) <;> simp only [hp] <;>
        · rw [show List.foldl _ _ t = prorateBudgetCells t n _ from rfl,
              ih _ hnd' h2, getCell_setCell_ne _ _ _ _ hc]

theorem zeroFill_notmem (cols : List String) (cs : Cells) (col : String)
    (h : col ∉ cols) :
    getCell (zeroFillCells cols cs) col = getCell cs col := by
  induction cols generalizing cs with
  | nil => rfl
  | cons c t ih =>
    have hc : col ≠ c := fun hh => h (hh ▸ List.mem_cons_self c t)
    have ht : col ∉ t := fun hh => h (List.mem_cons_of_mem c hh)
    simp only [zeroFillCells, List.foldl_cons] at ih ⊢
    rw [ih _ ht]
    exact getCell_setCell_ne cs c col _ hc

theorem getCell_zeroFill_mem (cols : List String) (cs : Cells) (col : String)
    (hm : col ∈ cols) :
    getCell (zeroFillCells cols cs) col = Cell.num 0 := by
  induction cols generalizing cs with
  | nil => cases hm
  | cons c t ih =>
    by_cases ht : col ∈ t
    · simp only [zeroFillCells, List.foldl_cons] at ih ⊢
      exact ih _ ht
    · have h1 : col = c := by
        rcases List.mem_cons.mp hm with h | h
        · exact h
        · exact absurd h ht
      subst h1
      simp only [zeroFillCells, List.foldl_cons]
      rw [show List.foldl _ _ t = zeroFillCells t _ from rfl, zeroFill_notmem t _ col ht,
          getCell_setCell_self]

theorem rangeDays_length (s e : ℤ) : (rangeDays s e).length = (e - s + 1).toNat := by
  rw [rangeDays, List.length_map, List.length_range]

/-! ## Claim C1 — proration conservation -/

/-- C1 amended: for every record whose start and end dates parse with
`start ≤ end`, the expander emits exactly `end − start + 1` rows, and for
every configured prorated field the sum of the emitted per-day values
equals the record's parsed value (null parsing to `0`); records with
`start > end` emit no rows at all (see the counterexample). -/
theorem c1_amended_conservation (prorateCols : List String) (plannedCol : String)
    (r : BudgetRow) (s e : ℤ) (hs : r.startDate? = some s) (he : r.endDate? = some e)
    (hse : s ≤ e) (hnd : prorateCols.Nodup) :
    ((expandBudget prorateCols plannedCol r).1.length = (e - s + 1).toNat) ∧
    ∀ col ∈ prorateCols,
      ((expandBudget prorateCols plannedCol r).1.map
        (fun dr => cellNum (getCell dr.cells col))).sum
        = (parse_number (getCell r.cells col)).getD 0 := by
  have hk : 1 ≤ (e - s + 1).toNat := by omega
  have hexp : (expandBudget prorateCols plannedCol r).1
      = (rangeDays s e).map (fun d =>
          ⟨some d, prorateBudgetCells prorateCols
            (max 1 (rangeDays s e).length) r.cells⟩) := by
    simp only [expandBudget, hs, he]
  have hn : max 1 (rangeDays s e).length = (e - s + 1).toNat := by
    rw [rangeDays_length]; omega
  constructor
  · rw [hexp, List.length_map, rangeDays_length]
  · intro col hcol
    rw [hexp, List.map_map]
    have hbase : getCell (prorateBudgetCells prorateCols
        (max 1 (rangeDays s e).length) r.cells) col =
        (match parse_number (getCell r.cells col) with
         | none => Cell.num 0
         | some v => Cell.num (v / ((max 1 (rangeDays s e).length : ℕ) : ℚ))) :=
      getCell_prorate_mem _ _ _ _ hnd hcol
    cases hp : parse_number (getCell r.cells col) with
    | none =>
        rw [hp] at hbase
        have hbase2 : getCell (prorateBudgetCells prorateCols
            (max 1 (rangeDays s e).length) r.cells) col = Cell.num 0 := hbase
        simp only [Function.comp_def, hbase2, cellNum]
        simp
    | some v =>
        rw [hp, hn] at hbase
        have hbase2 : getCell (prorateBudgetCells prorateCols
            ((e - s + 1).toNat) r.cells) col
            = Cell.num (v / (((e - s + 1).toNat : ℕ) : ℚ)) := hbase
        simp only [Function.comp_def, hn, hbase2, cellNum]
        rw [List.map_const', List.sum_replicate, rangeDays_length, nsmul_eq_mul]
        have hk0 : (((e - s + 1).toNat : ℕ) : ℚ) ≠ 0 := by
          have h1 : (0 : ℚ) < ((e - s + 1).toNat : ℚ) := by
            exact_mod_cast Nat.lt_of_lt_of_le Nat.zero_lt_one hk
          exact ne_of_gt h1
        rw [Option.getD_some, mul_comm, div_mul_cancel₀ _ hk0]

/-- Concrete budget row for the C1 witness: 3-day range, planned 300. -/
def c1Row : BudgetRow :=
  ⟨some 0, some 2, none, [("Planned (Local)", Cell.str "300")]⟩

theorem c1_amended_conservation_witness :
    ((expandBudget ["Planned (Local)"] "Planned (Local)" c1Row).1.length
       = ((2 : ℤ) - 0 + 1).toNat) ∧
    ∀ col ∈ ["Planned (Local)"],
      ((expandBudget ["Planned (Local)"] "Planned (Local)" c1Row).1.map
        (fun dr => cellNum (getCell dr.cells col))).sum
        = (parse_number (getCell c1Row.cells col)).getD 0 :=
  c1_amended_conservation ["Planned (Local)"] "Planned (Local)" c1Row 0 2 rfl rfl
    (by decide) (by decide)

/-! ## Claim C8 — proration date fallback -/

/-- C8 counterexample: in `split_daily_plans.py` a record with a missing
start date emits one pass-through row with a null date whose prorated
field **keeps its original magnitude** (`"500"`), and there is no
fiscal-year fallback — the claimed forcing to `0` does not happen. -/
theorem c8_counterexample :
    expandPlans ["Planned_Spend_DKK"]
      ⟨none, some 100, [("Planned_Spend_DKK", Cell.str "500")]⟩
      = [⟨none, [("Planned_Spend_DKK", Cell.str "500")]⟩]
    ∧ Cell.str "500" ≠ Cell.num 0 :=
  ⟨rfl, by decide⟩

/-- The review-collection test never succeeds on the modelled cell
domain: every value other than an absent column or the empty string
makes line 113 raise (`none`), and those two return `false`. -/
theorem plannedReviewTest_ne_true (plannedCol : String) (cs : Cells) :
    plannedReviewTest plannedCol cs ≠ some true := by
  unfold plannedReviewTest
  cases h : getCell? cs plannedCol with
  | none => simp
  | some c =>
    cases c with
    | na => simp
    | num q => simp
    | str s => by_cases hs : s = "" <;> simp [hs]

/-- C8 amended: in the budgets expander (`split_daily_budgets.py`), when
a date is missing and the fiscal-year fallback fails, exactly one row is
emitted, with a null date and every prorated column forced to `0`; the
separate collection for manual review, however, never happens: a run
that completes collects nothing (the review test cannot return `true`),
and any non-blank planned value makes line 113's membership test against
`pd.NA` raise `TypeError`, aborting the run, while an absent planned
column completes without collecting. The plans expander instead passes
the record through unchanged (see the counterexample). -/
theorem c8_amended_fallback (prorateCols : List String) (plannedCol : String)
    (r : BudgetRow) (hd : r.startDate? = none ∨ r.endDate? = none)
    (hf : r.fxYear? = none) :
    ((expandBudget prorateCols plannedCol r).1.length = 1) ∧
    (∀ dr ∈ (expandBudget prorateCols plannedCol r).1,
       dr.date? = none ∧ ∀ col ∈ prorateCols, getCell dr.cells col = Cell.num 0) ∧
    (∀ l, (expandBudget prorateCols plannedCol r).2 = some l → l = []) ∧
    (∀ s, getCell? r.cells plannedCol = some (Cell.str s) → s ≠ "" →
       (expandBudget prorateCols plannedCol r).2 = none) ∧
    (getCell? r.cells plannedCol = none →
       (expandBudget prorateCols plannedCol r).2 = some []) := by
  have hred : expandBudget prorateCols plannedCol r
      = ⟨[⟨none, zeroFillCells prorateCols r.cells⟩],
         (plannedReviewTest plannedCol r.cells).map
           (fun b => if b then [r.cells] else [])⟩ := by
    rcases hd with h1 | h2
    · cases hE : r.endDate? <;>
        simp only [expandBudget, h1, hE, hf, Option.map_none']
    · cases hS : r.startDate? <;>
        simp only [expandBudget, hS, h2, hf, Option.map_none']
  rw [hred]
  refine ⟨rfl, ?_, ?_, ?_, ?_⟩
  · intro dr hdr
    rw [List.mem_singleton] at hdr
    subst hdr
    exact ⟨rfl, fun col hc => getCell_zeroFill_mem _ _ _ hc⟩
  · intro l hl
    cases hv : plannedReviewTest plannedCol r.cells with
    | none => rw [hv] at hl; simp at hl
    | some b =>
        cases b with
        | true => exact absurd hv (plannedReviewTest_ne_true plannedCol r.cells)
        | false => rw [hv] at hl; simp at hl; exact hl
  · intro s hs hne
    simp only [plannedReviewTest, hs, if_neg hne, Option.map_none']
  · intro h0
    simp only [plannedReviewTest, h0, Option.map_some']
    rfl

/-- Concrete budget row for the C8 witness: no dates, no usable FX year,
non-blank planned value (on which line 113 raises). -/
def c8Row : BudgetRow :=
  ⟨none, some 5, none, [("Budget (Local)", Cell.str "100"), ("Planned (Local)", Cell.str "7")]⟩

theorem c8_amended_fallback_witness :
    ((expandBudget ["Budget (Local)"] "Planned (Local)" c8Row).1.length = 1) ∧
    (∀ dr ∈ (expandBudget ["Budget (Local)"] "Planned (Local)" c8Row).1,
       dr.date? = none ∧ ∀ col ∈ ["Budget (Local)"], getCell dr.cells col = Cell.num 0) ∧
    (∀ l, (expandBudget ["Budget (Local)"] "Planned (Local)" c8Row).2 = some l → l = []) ∧
    (∀ s, getCell? c8Row.cells "Planned (Local)" = some (Cell.str s) → s ≠ "" →
       (expandBudget ["Budget (Local)"] "Planned (Local)" c8Row).2 = none) ∧
    (getCell? c8Row.cells "Planned (Local)" = none →
       (expandBudget ["Budget (Local)"] "Planned (Local)" c8Row).2 = some []) :=
  c8_amended_fallback ["Budget (Local)"] "Planned (Local)" c8Row (Or.inl rfl) rfl

/-! ## Claim C9 — tolerant numeric parsing -/

/-- C9 counterexample: `to_float_safe` of `split_daily_plans.py` — one of
the claim's two cited parsers — returns the original **string** unchanged
on unparseable input (here the null token `"N/A"`), not a number or null. -/
theorem c9_counterexample :
    to_float_safe (Cell.str "N/A") = Cell.str "N/A"
    ∧ isNumOrNull (to_float_safe (Cell.str "N/A")) = false :=
  ⟨rfl, rfl⟩

/-- C9 amended: `parse_number` of `split_daily_budgets.py` is total and
returns a number or null for every input — currency symbols, thousands
separators and NBSP are stripped, parenthesized values negate, null
tokens parse to null, and a null parse is forced to `0` in the proration
step; `to_float_safe` of `split_daily_plans.py` is also total and never
raises, but returns its input unchanged (a string) when it cannot parse. -/
theorem c9_amended_parser_safety :
    (∀ c : Cell, parse_number c = none ∨ ∃ q, parse_number c = some q) ∧
    parse_number (Cell.str "N/A") = none ∧
    parse_number (Cell.str "-") = none ∧
    parse_number Cell.na = none ∧
    parse_number (Cell.str "$1,234.50") = some (1234.5 : ℚ) ∧
    parse_number (Cell.str "(100)") = some (-100) ∧
    parse_number (Cell.str ("1" ++ String.mk [Char.ofNat 160] ++ "000")) = some 1000 ∧
    (∀ s : String, to_float_safe (Cell.str s) = Cell.str s
       ∨ ∃ q, to_float_safe (Cell.str s) = Cell.num q) ∧
    getCell (prorateBudgetCells ["Planned (Local)"] 5
      [("Planned (Local)", Cell.str "N/A")]) "Planned (Local)" = Cell.num 0 := by
  refine ⟨?_, rfl, rfl, rfl, ?_, ?_, ?_, ?_, rfl⟩
  · intro c
    cases h : parse_number c
    · exact Or.inl rfl
    · exact Or.inr ⟨_, rfl⟩
  · have h : parse_number (Cell.str "$1,234.50")
        = some (1 * decimalValue ['1', '2', '3', '4'] ['5', '0']) := rfl
    rw [h]
    norm_num [decimalValue, show digitsToNat ['1', '2', '3', '4'] = 1234 from rfl,
      show digitsToNat ['5', '0'] = 50 from rfl]
  · have h : parse_number (Cell.str "(100)")
        = some (-1 * decimalValue ['1', '0', '0'] []) := rfl
    rw [h]
    norm_num [decimalValue, show digitsToNat ['1', '0', '0'] = 100 from rfl,
      show digitsToNat [] = 0 from rfl]
  · have h : parse_number (Cell.str ("1" ++ String.mk [Char.ofNat 160] ++ "000"))
        = some (1 * decimalValue ['1', '0', '0', '0'] []) := rfl
    rw [h]
    norm_num [decimalValue, show digitsToNat ['1', '0', '0', '0'] = 1000 from rfl,
      show digitsToNat [] = 0 from rfl]
  · intro s
    cases h : pyFloat (pyStrip (dropCommas s)) with
    | none => exact Or.inl (by simp [to_float_safe, h])
    | some q => exact Or.inr ⟨q, by simp [to_float_safe, h]⟩

/-- C1 counterexample: a record whose start and end dates both parse but
with start after end (`start = day 100`, `end = day 99`) makes
`pd.date_range` empty, and the emission loop of `split_daily_budgets.main`
then emits **zero** rows — not the claimed minimum of one — so the sum of
the prorated field over the emitted rows is `0`, not the parsed `300`. -/
theorem c1_counterexample :
    (expandBudget ["Planned (Local)"] "Planned (Local)"
      ⟨some 100, some 99, none, [("Planned (Local)", Cell.str "300")]⟩).1 = []
    ∧ parse_number (Cell.str "300") = some 300 := by
  refine ⟨rfl, ?_⟩
  have h : parse_number (Cell.str "300") = some (1 * decimalValue ['3', '0', '0'] []) := rfl
  rw [h]
  norm_num [decimalValue, show digitsToNat ['3', '0', '0'] = 300 from rfl,
    show digitsToNat [] = 0 from rfl]

/-! ## Claim C2 — alias-index scope precedence -/

/-- The two-row reference table of the claim: a DK-scoped alias `X` of
canonical `A` followed by a global alias `X` of canonical `B`. -/
def c2Rows : List BrandRefRow :=
  [⟨"A", "DK", "X"⟩, ⟨"B", "", "X"⟩]

/-- C2 counterexample: with reference rows
`[(A, mkt=DK, alias=X), (B, global, alias=X)]`, resolving alias `X` for a
market with no scoped entry (`US`) yields `A`, not the global row's `B`:
`build_index` registers every row's alias at global scope too
(first-seen wins), so the DK row captures the global slot before the
global row is read. -/
theorem c2_counterexample :
    (passA (build_index c2Rows).1 (build_index c2Rows).2 "X" "US").1 = some "A"
    ∧ (some "A" : Option String) ≠ some "B" :=
  ⟨rfl, by decide⟩

/-- C2 amended: at resolution time a market-scoped index entry always
outranks the global entry for the same normalized alias (the scoped lookup
is tried first), and in the two-row example `resolve(DK, X) = A`; but
because `build_index` also registers every row at global scope with
first-seen-wins, `resolve(US, X) = A` as well, not `B`. -/
theorem c2_amended_precedence :
    (∀ (idx : Idx) (canons : List String) (brand market v : String),
       norm market ≠ "" →
       lookupIdx idx (some (norm market), norm brand) = some v →
       (passA idx canons brand market).1 = some v) ∧
    (passA (build_index c2Rows).1 (build_index c2Rows).2 "X" "DK").1 = some "A" ∧
    (passA (build_index c2Rows).1 (build_index c2Rows).2 "X" "US").1 = some "A" := by
  refine ⟨?_, rfl, rfl⟩
  intro idx canons brand market v hm hl
  simp only [passA, mOrNone, if_neg hm, hl]

theorem c2_amended_precedence_witness :
    norm "DK" ≠ "" ∧
    lookupIdx (build_index c2Rows).1 (some (norm "DK"), norm "X") = some "A" ∧
    (passA (build_index c2Rows).1 (build_index c2Rows).2 "X" "DK").1 = some "A" :=
  ⟨by decide, rfl,
   c2_amended_precedence.1 (build_index c2Rows).1 (build_index c2Rows).2 "X" "DK" "A"
     (by decide) rfl⟩

/-! ## Claim C6 — brand resolver blank on unresolved -/

/-- C6: when neither Pass A (taxonomy mapping) nor Pass B (title
inference) produces a brand, the resolver's row records the
`brand_unmapped` issue and the final brand is the empty string — no
canonical value is invented. -/
theorem c6_brand_unmapped_blank (idx : Idx) (canons : List String)
    (brand market plan camp : String)
    (hA : (passA idx canons brand market).1 = none)
    (hB : (detect_from_titles plan camp market idx canons).1 = none) :
    (two_pass_row idx canons brand market plan camp).brand_final = "" ∧
    (two_pass_row idx canons brand market plan camp).issue = "brand_unmapped" := by
  simp [two_pass_row, hA, hB]

theorem c6_brand_unmapped_blank_witness :
    (passA [] [] "zzz" "DK").1 = none ∧
    (detect_from_titles "Some plan" "Some campaign" "DK" [] []).1 = none ∧
    (two_pass_row [] [] "zzz" "DK" "Some plan" "Some campaign").brand_final = "" ∧
    (two_pass_row [] [] "zzz" "DK" "Some plan" "Some campaign").issue = "brand_unmapped" := by
  refine ⟨rfl, rfl, ?_⟩
  exact c6_brand_unmapped_blank [] [] "zzz" "DK" "Some plan" "Some campaign" rfl rfl

/-! ## Claim C7 — FX audit condition -/

/-- C7: for the audited (reported, computed) pair of a record, the
`eur_mismatch` flag is raised iff the reported value is strictly positive
and the relative difference `|reported − computed| / reported` exceeds
the tolerance; a zero reported value is never flagged. -/
theorem c7_audit_iff :
    (∀ tol given calcv : ℚ,
       (fxAuditFlag tol given calcv = true ↔
         0 < given ∧ tol < |given - calcv| / given)) ∧
    (∀ tol calcv : ℚ, fxAuditFlag tol 0 calcv = false) := by
  constructor
  · intro tol g c
    unfold fxAuditFlag
    by_cases hg : 0 < g
    · have hne : g ≠ 0 := ne_of_gt hg
      simp [hne, hg]
    · simp [hg, GT.gt]
  · intro tol c
    unfold fxAuditFlag
    simp

/-! ## Fallback-joiner lemmas -/

theorem getCol_ensureCols (cols : List String) (rec : Rec) (c : String) :
    getCol (ensureCols cols rec) c = getCol rec c := by
  induction cols generalizing rec with
  | nil => rfl
  | cons col t ih =>
    simp only [ensureCols, List.foldl_cons] at ih ⊢
    by_cases hpres : hasColS rec col
    · rw [if_pos hpres]; exact ih rec
    · rw [if_neg hpres]
      rw [ih (setCol rec col "")]
      by_cases hc : c = col
      · subst hc
        rw [getCol_setCol_self]
        unfold hasColS at hpres
        unfold getCol
        cases hv : rec.lookup c
        · rfl
        · simp [hv] at hpres
      · exact getCol_setCol_ne rec col c "" hc

theorem lookup_ensureCols_notmem (cols : List String) (rec : Rec) (c : String)
    (h : c ∉ cols) :
    (ensureCols cols rec).lookup c = rec.lookup c := by
  induction cols generalizing rec with
  | nil => rfl
  | cons col t ih =>
    have hc : c ≠ col := fun hh => h (hh ▸ List.mem_cons_self col t)
    have ht : c ∉ t := fun hh => h (List.mem_cons_of_mem col hh)
    simp only [ensureCols, List.foldl_cons] at ih ⊢
    by_cases hpres : hasColS rec col
    · rw [if_pos hpres]; exact ih rec ht
    · rw [if_neg hpres, ih (setCol rec col "") ht]
      exact lookup_setCol_ne rec col c "" hc

theorem prepRef_notmem (cols : List String) (row : Rec) (c : String)
    (h : c ∉ cols) :
    getCol (prepRefCols cols row) c = getCol row c := by
  induction cols generalizing row with
  | nil => rfl
  | cons col t ih =>
    have hc : c ≠ col := fun hh => h (hh ▸ List.mem_cons_self col t)
    have ht : c ∉ t := fun hh => h (List.mem_cons_of_mem col hh)
    simp only [prepRefCols, List.foldl_cons] at ih ⊢
    rw [ih _ ht]
    exact getCol_setCol_ne row col c _ hc

theorem getCol_prepRef_mem (cols : List String) (row : Rec) (c : String)
    (hnd : cols.Nodup) (hm : c ∈ cols) :
    getCol (prepRefCols cols row) c = pyStrip (getCol row c) := by
  induction cols generalizing row with
  | nil => cases hm
  | cons col t ih =>
    rcases List.mem_cons.mp hm with h1 | h2
    · subst h1
      have ht : c ∉ t := (List.nodup_cons.mp hnd).1
      simp only [prepRefCols, List.foldl_cons]
      rw [show List.foldl _ _ t = prepRefCols t _ from rfl, prepRef_notmem t _ c ht,
          getCol_setCol_self]
    · have hnd' := (List.nodup_cons.mp hnd).2
      have hc : c ≠ col := by
        rintro rfl; exact (List.nodup_cons.mp hnd).1 h2
      simp only [prepRefCols, List.foldl_cons]
      rw [show List.foldl _ _ t = prepRefCols t _ from rfl, ih _ hnd' h2,
          getCol_setCol_ne row col c _ hc]

theorem applyOutputs_preserve_nonblank (outs : List (String × String)) (rr acc : Rec)
    (dst : String) (h : pyStrip (getCol acc dst) ≠ "") :
    getCol (applyOutputs outs rr acc) dst = getCol acc dst := by
  induction outs generalizing acc with
  | nil => rfl
  | cons p t ih =>
    simp only [applyOutputs, List.foldl_cons] at ih ⊢
    by_cases hc : pyStrip (getCol acc p.2) = ""
    · rw [if_pos hc]
      have hd : dst ≠ p.2 := fun hh => h (hh ▸ hc)
      rw [ih _ (by rw [getCol_setCol_ne acc p.2 dst _ hd]; exact h),
          getCol_setCol_ne acc p.2 dst _ hd]
    · rw [if_neg hc]
      exact ih acc h

theorem applyOutputs_lookup_notdst (outs : List (String × String)) (rr acc : Rec)
    (c : String) (h : c ∉ outs.map Prod.snd) :
    (applyOutputs outs rr acc).lookup c = acc.lookup c := by
  induction outs generalizing acc with
  | nil => rfl
  | cons p t ih =>
    have hc : c ≠ p.2 := fun hh => h (by rw [List.map_cons]; exact hh ▸ List.mem_cons_self _ _)
    have ht : c ∉ t.map Prod.snd := fun hh => h (by rw [List.map_cons]; exact List.mem_cons_of_mem _ hh)
    simp only [applyOutputs, List.foldl_cons] at ih ⊢
    by_cases hcb : pyStrip (getCol acc p.2) = ""
    · rw [if_pos hcb, ih _ ht]
      exact lookup_setCol_ne acc p.2 c _ hc
    · rw [if_neg hcb]
      exact ih acc ht

theorem applyOutputs_empty_blank (outs : List (String × String)) (acc : Rec)
    (dst : String) (h : pyStrip (getCol acc dst) = "") :
    pyStrip (getCol (applyOutputs outs [] acc) dst) = "" := by
  induction outs generalizing acc with
  | nil => exact h
  | cons p t ih =>
    simp only [applyOutputs, List.foldl_cons] at ih ⊢
    by_cases hcb : pyStrip (getCol acc p.2) = ""
    · rw [if_pos hcb]
      refine ih _ ?_
      by_cases hd : dst = p.2
      · subst hd
        rw [getCol_setCol_self]
        rfl
      · rw [getCol_setCol_ne acc p.2 dst _ hd]; exact h
    · rw [if_neg hcb]
      exact ih acc h

theorem applyOutputs_getCol_notdst (outs : List (String × String)) (rr acc : Rec)
    (c : String) (h : c ∉ outs.map Prod.snd) :
    getCol (applyOutputs outs rr acc) c = getCol acc c := by
  unfold getCol
  rw [applyOutputs_lookup_notdst outs rr acc c h]

theorem applyOutputs_fill (outs : List (String × String)) (src dst : String)
    (rr acc : Rec)
    (hout : outs.filter (fun p => p.2 == dst) = [(src, dst)])
    (hblank : pyStrip (getCol acc dst) = "") :
    getCol (applyOutputs outs rr acc) dst = getCol rr src := by
  induction outs generalizing acc with
  | nil => simp at hout
  | cons p t ih =>
    by_cases hd : p.2 = dst
    · have hb : (p.2 == dst) = true := by simp [hd]
      rw [List.filter_cons, if_pos hb] at hout
      have hp : p = (src, dst) := (List.cons.injEq _ _ _ _).mp hout |>.1
      have htf : t.filter (fun p => p.2 == dst) = [] := (List.cons.injEq _ _ _ _).mp hout |>.2
      have hnone : dst ∉ t.map Prod.snd := by
        intro hmem
        rcases List.mem_map.mp hmem with ⟨q, hq, hq2⟩
        have hq3 : ¬ ((fun p => p.2 == dst) q = true) := by
          have := List.filter_eq_nil_iff.mp htf q hq
          simpa using this
        exact hq3 (by simp [hq2])
      subst hp
      simp only [applyOutputs, List.foldl_cons]
      rw [if_pos (by exact hblank)]
      have hfold : (List.foldl (fun acc p => if pyStrip (getCol acc p.2) = ""
          then setCol acc p.2 (getCol rr p.1) else acc) (setCol acc dst (getCol rr src)) t)
          = applyOutputs t rr (setCol acc dst (getCol rr src)) := rfl
      rw [hfold, applyOutputs_getCol_notdst t rr _ dst hnone, getCol_setCol_self]
    · have hb : (p.2 == dst) = false := by simp [hd]
      rw [List.filter_cons, if_neg (by simp [hb])] at hout
      simp only [applyOutputs, List.foldl_cons] at ih ⊢
      by_cases hcb : pyStrip (getCol acc p.2) = ""
      · rw [if_pos hcb]
        refine ih _ hout ?_
        rw [getCol_setCol_ne acc p.2 dst _ (fun hh => hd hh.symm)]
        exact hblank
      · rw [if_neg hcb]
        exact ih acc hout hblank

theorem rulesFold_preserve_nonblank (outputs : List (String × String)) (b : List Rec)
    (leftOf : String → String) (rules : List (List String)) (acc : Rec) (dst : String)
    (h : pyStrip (getCol acc dst) ≠ "") :
    getCol (rulesFold outputs b leftOf rules acc) dst = getCol acc dst := by
  induction rules generalizing acc with
  | nil => rfl
  | cons keys t ih =>
    simp only [rulesFold, List.foldl_cons] at ih ⊢
    have hstep : getCol (applyOutputs outputs
        ((findMatch b acc keys leftOf).getD []) acc) dst = getCol acc dst :=
      applyOutputs_preserve_nonblank outputs _ acc dst h
    rw [ih _ (by rw [hstep]; exact h), hstep]

theorem rulesFold_lookup_notdst (outputs : List (String × String)) (b : List Rec)
    (leftOf : String → String) (rules : List (List String)) (acc : Rec) (c : String)
    (h : c ∉ outputs.map Prod.snd) :
    (rulesFold outputs b leftOf rules acc).lookup c = acc.lookup c := by
  induction rules generalizing acc with
  | nil => rfl
  | cons keys t ih =>
    simp only [rulesFold, List.foldl_cons] at ih ⊢
    rw [ih _, applyOutputs_lookup_notdst outputs _ acc c h]

/-! ## Claim C3 — fallback-joiner precedence -/

/-- C3: in the per-record joiner (`brands_map` instance), when the record
matches the first precedence rule `k1` with reference row `rr` whose
mapped source value is non-blank and the target field is still blank
after preparation, the field receives `k1`'s mapped value, and no later
rule — whatever it matches — ever overwrites it. -/
theorem c3_joiner_precedence (k1 : List String) (rest : List (List String))
    (outputs : List (String × String)) (refRows : List Rec) (rec : Rec)
    (rr : Rec) (src dst : String)
    (hout : outputs.filter (fun p => p.2 == dst) = [(src, dst)])
    (hfind : findMatch (refRows.map (prepRefCols brandsRefCols)) (brandsPrep rec) k1
       brandsLeftOf = some rr)
    (hnb : pyStrip (getCol rr src) ≠ "")
    (hblank : pyStrip (getCol (brandsPrep rec) dst) = "") :
    getCol (brands_map (k1 :: rest) outputs refRows rec).1 dst = getCol rr src := by
  have hfill : getCol (applyOutputs outputs rr (brandsPrep rec)) dst = getCol rr src :=
    applyOutputs_fill outputs src dst rr (brandsPrep rec) hout hblank
  have hshape : (brands_map (k1 :: rest) outputs refRows rec).1
      = rulesFold outputs (refRows.map (prepRefCols brandsRefCols)) brandsLeftOf rest
          (applyOutputs outputs rr (brandsPrep rec)) := by
    simp only [brands_map, rulesFold, List.foldl_cons, hfind, Option.getD_some]
  rw [hshape,
      rulesFold_preserve_nonblank _ _ _ rest _ dst (by rw [hfill]; exact hnb), hfill]

/-- Reference table for the C3 witness: a market-scoped row (rule `k1`)
and a market-less row (rule `k2`), both matching raw brand `acme`. -/
def c3Ref : List Rec :=
  [[("raw_brand", "acme"), ("market", "DK"), ("brand_clean", "Acme Corp")],
   [("raw_brand", "acme"), ("brand_clean", "Wrong Brand")]]

/-- The C3 witness record: matches both rules. -/
def c3RecIn : Rec := [("Brand", "acme"), ("Market", "DK")]

theorem c3_joiner_precedence_witness :
    ([("brand_clean", "Brand_clean")].filter (fun p => p.2 == "Brand_clean")
        = [("brand_clean", "Brand_clean")]) ∧
    (findMatch (c3Ref.map (prepRefCols brandsRefCols)) (brandsPrep c3RecIn)
        ["raw_brand", "market"] brandsLeftOf
      = some (prepRefCols brandsRefCols c3Ref.head!)) ∧
    getCol (brands_map [["raw_brand", "market"], ["raw_brand"]]
        [("brand_clean", "Brand_clean")] c3Ref c3RecIn).1 "Brand_clean"
      = getCol (prepRefCols brandsRefCols c3Ref.head!) "brand_clean" := by
  refine ⟨rfl, rfl, ?_⟩
  exact c3_joiner_precedence ["raw_brand", "market"] [["raw_brand"]]
    [("brand_clean", "Brand_clean")] c3Ref c3RecIn
    (prepRefCols brandsRefCols c3Ref.head!) "brand_clean" "Brand_clean"
    rfl rfl (by decide) rfl

/-! ## Claim C10 — fallback-joiner frame property -/

/-- C10 counterexample: `brands_map` adds the helper join-key column
`_raw_brand` (and siblings) to the output record and never drops it, so
the joiner does introduce columns beyond the configured target output
fields. -/
theorem c10_counterexample :
    hasColS (brands_map [] [] [] [("Brand", "Acme"), ("Foo", "bar")]).1 "_raw_brand" = true
    ∧ hasColS [("Brand", "Acme"), ("Foo", "bar")] "_raw_brand" = false
    ∧ "_raw_brand" ∉ brandsEnsured :=
  ⟨rfl, rfl, by decide⟩

/-- C10 amended: every column other than the configured target output
fields, the ensured `*_clean` targets and the helper join-key columns
(`_raw_brand`, `_raw_variant`, `_market` for brands; `_raw_vendor` and
the three vendor targets for vendors) passes through the joiner with
value and presence unchanged; the helper columns are however added. -/
theorem c10_amended_frame :
    (∀ (precedence : List (List String)) (outputs : List (String × String))
       (refRows : List Rec) (rec : Rec) (c : String),
       c ∉ outputs.map Prod.snd → c ∉ brandsEnsured →
       c ∉ ["_raw_brand", "_raw_variant", "_market"] →
       (brands_map precedence outputs refRows rec).1.lookup c = rec.lookup c) ∧
    (∀ (refRows : List Rec) (rec : Rec) (c : String),
       c ∉ ["Vendor_clean", "Vendor_House", "Vendor_Type", "_raw_vendor"] →
       (vendors_map refRows rec).1.lookup c = rec.lookup c) := by
  constructor
  · intro precedence outputs refRows rec c h1 h2 h3
    simp only [List.mem_cons, List.not_mem_nil, or_false, not_or] at h3
    obtain ⟨hA, hB, hC⟩ := h3
    have hshape : (brands_map precedence outputs refRows rec).1
        = rulesFold outputs (refRows.map (prepRefCols brandsRefCols)) brandsLeftOf
            precedence (brandsPrep rec) := rfl
    rw [hshape, rulesFold_lookup_notdst _ _ _ _ _ _ h1]
    unfold brandsPrep
    rw [lookup_setCol_ne _ _ _ _ hC, lookup_setCol_ne _ _ _ _ hB,
        lookup_setCol_ne _ _ _ _ hA, lookup_ensureCols_notmem _ _ _ h2]
  · intro refRows rec c h
    simp only [List.mem_cons, List.not_mem_nil, or_false, not_or] at h
    obtain ⟨h1, h2, h3, h4⟩ := h
    have hdsts : c ∉ vendorsOutputs.map Prod.snd := by
      simp only [vendorsOutputs, List.map_cons, List.map_nil, List.mem_cons,
        List.not_mem_nil, or_false, not_or]
      exact ⟨h1, h2, h3⟩
    have hens : c ∉ vendorsEnsured := by
      simp only [vendorsEnsured, List.mem_cons, List.not_mem_nil, or_false, not_or]
      exact ⟨h1, h2, h3⟩
    have hbase : (vendorsJoined refRows rec).lookup c = rec.lookup c := by
      unfold vendorsJoined vendorsPrep
      rw [applyOutputs_lookup_notdst _ _ _ _ hdsts,
          lookup_setCol_ne _ _ _ _ h4, lookup_ensureCols_notmem _ _ _ hens]
    by_cases hcond : pyStrip (getCol (vendorsJoined refRows rec) "Vendor_clean") = ""
    · simp only [vendors_map, if_pos hcond]
      rw [lookup_setCol_ne _ _ _ _ h1]
      exact hbase
    · simp only [vendors_map, if_neg hcond]
      exact hbase

theorem c10_amended_frame_witness :
    ("Foo" ∉ ([("brand_clean", "Brand_clean")].map Prod.snd)) ∧
    ("Foo" ∉ brandsEnsured) ∧
    ("Foo" ∉ ["_raw_brand", "_raw_variant", "_market"]) ∧
    (brands_map [["raw_brand"]] [("brand_clean", "Brand_clean")] c3Ref
        [("Brand", "Acme"), ("Foo", "bar")]).1.lookup "Foo"
      = ([("Brand", "Acme"), ("Foo", "bar")] : Rec).lookup "Foo" :=
  ⟨by decide, by decide, by decide,
   c10_amended_frame.1 [["raw_brand"]] [("brand_clean", "Brand_clean")] c3Ref
     [("Brand", "Acme"), ("Foo", "bar")] "Foo" (by decide) (by decide) (by decide)⟩

/-! ## Claim C4 — behavior on records matching no rule -/

theorem all_keys_congr (keys : List String) (leftOf : String → String) (a b rr : Rec)
    (h : ∀ k ∈ keys, getCol a (leftOf k) = getCol b (leftOf k)) :
    (keys.all fun k => getCol a (leftOf k) == getCol rr k)
      = (keys.all fun k => getCol b (leftOf k) == getCol rr k) := by
  induction keys with
  | nil => rfl
  | cons k t ih =>
    simp only [List.all_cons]
    rw [h k (List.mem_cons_self k t),
        ih (fun k' hk' => h k' (List.mem_cons_of_mem k hk'))]

theorem findMatch_congr (refRows : List Rec) (a b : Rec) (keys : List String)
    (leftOf : String → String)
    (h : ∀ k ∈ keys, getCol a (leftOf k) = getCol b (leftOf k)) :
    findMatch refRows a keys leftOf = findMatch refRows b keys leftOf := by
  have hfun : (fun rr => keys.all fun k => getCol a (leftOf k) == getCol rr k)
      = (fun rr => keys.all fun k => getCol b (leftOf k) == getCol rr k) :=
    funext fun rr => all_keys_congr keys leftOf a b rr h
  unfold findMatch
  rw [hfun]

/-- Over rules that all miss the prepared record (and whose keys read only
helper columns that the outputs never overwrite), the precedence fold
keeps the helper columns equal to the prepared record's and keeps every
strip-blank column strip-blank. -/
theorem rulesFold_no_match (outputs : List (String × String)) (b : List Rec)
    (leftOf : String → String) (helpers : List String) :
    ∀ (rules : List (List String)) (prep acc : Rec),
    (∀ keys ∈ rules, ∀ k ∈ keys, leftOf k ∈ helpers) →
    (∀ p ∈ outputs, p.2 ∉ helpers) →
    (∀ keys ∈ rules, findMatch b prep keys leftOf = none) →
    (∀ h' ∈ helpers, getCol acc h' = getCol prep h') →
    (∀ h' ∈ helpers, getCol (rulesFold outputs b leftOf rules acc) h' = getCol prep h') ∧
    (∀ dst : String, pyStrip (getCol acc dst) = "" →
       pyStrip (getCol (rulesFold outputs b leftOf rules acc) dst) = "") := by
  intro rules
  induction rules with
  | nil => intro prep acc _ _ _ hagr; exact ⟨hagr, fun dst h => h⟩
  | cons keys t ih =>
    intro prep acc hkeys houts hmiss hagr
    have hmatch : findMatch b acc keys leftOf = none := by
      rw [findMatch_congr b acc prep keys leftOf
        (fun k hk => hagr (leftOf k) (hkeys keys (List.mem_cons_self keys t) k hk))]
      exact hmiss keys (List.mem_cons_self keys t)
    have hnotd : ∀ h' ∈ helpers, h' ∉ outputs.map Prod.snd := by
      intro h' hh hmem
      rcases List.mem_map.mp hmem with ⟨p, hp, hp2⟩
      exact houts p hp (hp2 ▸ hh)
    have hagr' : ∀ h' ∈ helpers, getCol (applyOutputs outputs [] acc) h' = getCol prep h' := by
      intro h' hh
      rw [applyOutputs_getCol_notdst _ _ _ _ (hnotd h' hh)]
      exact hagr h' hh
    have hstep : rulesFold outputs b leftOf (keys :: t) acc
        = rulesFold outputs b leftOf t (applyOutputs outputs [] acc) := by
      simp only [rulesFold, List.foldl_cons, hmatch, Option.getD_none]
    rw [hstep]
    have hres := ih prep (applyOutputs outputs [] acc)
      (fun ks hk => hkeys ks (List.mem_cons_of_mem keys hk))
      houts
      (fun ks hk => hmiss ks (List.mem_cons_of_mem keys hk))
      hagr'
    refine ⟨hres.1, ?_⟩
    intro dst hdst
    exact hres.2 dst (applyOutputs_empty_blank outputs acc dst hdst)

/-- C4 counterexample: a record whose vendor matches no reference row does
not stay blank — `vendors_map` writes the literal `"_Placeholder"` into
`Vendor_clean`. -/
theorem c4_counterexample :
    getCol (vendors_map [] [("Vendor", "zzz")]).1 "Vendor_clean" = "_Placeholder"
    ∧ "_Placeholder" ≠ "" :=
  ⟨rfl, by decide⟩

/-- C4 amended: a record matching no precedence rule stays blank only in
the brand domain (with a `brand_unmapped` P2 event); in the campaign
domain `Campaign_clean` is filled with the raw `Campaign Name`
(`campaign_unmapped` P3 event), and in the vendor domain `Vendor_clean`
is set to the placeholder `"_Placeholder"` (`vendor_unmapped` P2 event
suggesting it). -/
theorem c4_amended_no_match :
    (∀ (precedence : List (List String)) (outputs : List (String × String))
       (refRows : List Rec) (rec : Rec),
       (∀ keys ∈ precedence, ∀ k ∈ keys,
          brandsLeftOf k ∈ ["_raw_brand", "_raw_variant", "_market"]) →
       (∀ p ∈ outputs, p.2 ∉ ["_raw_brand", "_raw_variant", "_market"]) →
       (∀ keys ∈ precedence,
          findMatch (refRows.map (prepRefCols brandsRefCols)) (brandsPrep rec) keys
            brandsLeftOf = none) →
       pyStrip (getCol rec "Brand_clean") = "" →
       pyStrip (getCol (brands_map precedence outputs refRows rec).1 "Brand_clean") = "" ∧
       ∃ ev ∈ (brands_map precedence outputs refRows rec).2,
         ev.issueType = "brand_unmapped" ∧ ev.priority = "P2") ∧
    (∀ (precedence : List (List String)) (outputs : List (String × String))
       (refRows : List Rec) (rec : Rec),
       (∀ keys ∈ precedence, ∀ k ∈ keys,
          campaignsLeftOf k ∈ ["_raw_campaign", "_market", "_brand"]) →
       (∀ p ∈ outputs, p.2 ∉ ["_raw_campaign", "_market", "_brand"]) →
       (∀ p ∈ outputs, p.2 ≠ "Campaign Name") →
       (∀ keys ∈ precedence,
          findMatch (refRows.map (prepRefCols campaignsRefCols)) (campaignsPrep rec) keys
            campaignsLeftOf = none) →
       pyStrip (getCol rec "Campaign_clean") = "" →
       getCol (campaigns_map precedence outputs refRows rec).1 "Campaign_clean"
         = getCol rec "Campaign Name" ∧
       ∃ ev ∈ (campaigns_map precedence outputs refRows rec).2,
         ev.issueType = "campaign_unmapped" ∧ ev.priority = "P3") ∧
    (∀ (refRows : List Rec) (rec : Rec),
       (∀ v ∈ refRows, pyStrip (getCol v "raw_vendor") ≠ pyStrip (getCol rec "Vendor")) →
       pyStrip (getCol rec "Vendor_clean") = "" →
       getCol (vendors_map refRows rec).1 "Vendor_clean" = "_Placeholder" ∧
       ∃ ev ∈ (vendors_map refRows rec).2,
         ev.issueType = "vendor_unmapped" ∧ ev.suggested = "_Placeholder") := by
  refine ⟨?_, ?_, ?_⟩
  · intro precedence outputs refRows rec hkeys houts hmiss hblank
    have hprep : getCol (brandsPrep rec) "Brand_clean" = getCol rec "Brand_clean" := by
      unfold brandsPrep
      rw [getCol_setCol_ne _ _ _ _ (by decide), getCol_setCol_ne _ _ _ _ (by decide),
          getCol_setCol_ne _ _ _ _ (by decide), getCol_ensureCols]
    have hres := rulesFold_no_match outputs
      (refRows.map (prepRefCols brandsRefCols)) brandsLeftOf
      ["_raw_brand", "_raw_variant", "_market"] precedence (brandsPrep rec)
      (brandsPrep rec) hkeys houts hmiss (fun _ _ => rfl)
    have hblankF : pyStrip (getCol (rulesFold outputs
        (refRows.map (prepRefCols brandsRefCols)) brandsLeftOf precedence
        (brandsPrep rec)) "Brand_clean") = "" :=
      hres.2 "Brand_clean" (by rw [hprep]; exact hblank)
    refine ⟨hblankF, ?_⟩
    have hev : (brands_map precedence outputs refRows rec).2
        = if pyStrip (getCol (rulesFold outputs
            (refRows.map (prepRefCols brandsRefCols)) brandsLeftOf precedence
            (brandsPrep rec)) "Brand_clean") = "" then
            [qa_event (rulesFold outputs (refRows.map (prepRefCols brandsRefCols))
               brandsLeftOf precedence (brandsPrep rec)) "Brand" "brand_unmapped"
               (getCol (rulesFold outputs (refRows.map (prepRefCols brandsRefCols))
                  brandsLeftOf precedence (brandsPrep rec)) "Brand") "" "Analytics" "P2"]
          else [] := rfl
    rw [hev, if_pos hblankF]
    exact ⟨_, List.mem_singleton_self _, rfl, rfl⟩
  · intro precedence outputs refRows rec hkeys houts hnoC hmiss hblank
    have hprep : getCol (campaignsPrep rec) "Campaign_clean"
        = getCol rec "Campaign_clean" := by
      unfold campaignsPrep
      rw [getCol_setCol_ne _ _ _ _ (by decide), getCol_setCol_ne _ _ _ _ (by decide),
          getCol_setCol_ne _ _ _ _ (by decide), getCol_ensureCols]
    have hres := rulesFold_no_match outputs
      (refRows.map (prepRefCols campaignsRefCols)) campaignsLeftOf
      ["_raw_campaign", "_market", "_brand"] precedence (campaignsPrep rec)
      (campaignsPrep rec) hkeys houts hmiss (fun _ _ => rfl)
    have hblankF : pyStrip (getCol (campaignsJoined precedence outputs refRows rec)
        "Campaign_clean") = "" :=
      hres.2 "Campaign_clean" (by rw [hprep]; exact hblank)
    have hname : getCol (campaignsJoined precedence outputs refRows rec) "Campaign Name"
        = getCol rec "Campaign Name" := by
      have hnotd : "Campaign Name" ∉ outputs.map Prod.snd := by
        intro hmem
        rcases List.mem_map.mp hmem with ⟨p, hp, hp2⟩
        exact hnoC p hp hp2
      unfold campaignsJoined getCol
      rw [rulesFold_lookup_notdst _ _ _ _ _ _ hnotd]
      unfold campaignsPrep
      rw [lookup_setCol_ne _ _ _ _ (by decide), lookup_setCol_ne _ _ _ _ (by decide),
          lookup_setCol_ne _ _ _ _ (by decide),
          lookup_ensureCols_notmem _ _ _ (by decide)]
    constructor
    · have h1 : (campaigns_map precedence outputs refRows rec).1
          = setCol (campaignsJoined precedence outputs refRows rec) "Campaign_clean"
              (getCol (campaignsJoined precedence outputs refRows rec) "Campaign Name") := by
        simp only [campaigns_map, if_pos hblankF]
      rw [h1, getCol_setCol_self, hname]
    · have h2 : (campaigns_map precedence outputs refRows rec).2
          = [qa_event (campaignsJoined precedence outputs refRows rec) "Campaign Name"
               "campaign_unmapped"
               (getCol (campaignsJoined precedence outputs refRows rec) "Campaign Name")
               "" "Analytics" "P3"] := by
        simp only [campaigns_map, if_pos hblankF]
      rw [h2]
      exact ⟨_, List.mem_singleton_self _, rfl, rfl⟩
  · intro refRows rec hm hblank
    have hfind : findMatch (refRows.map (prepRefCols vendorsRefCols)) (vendorsPrep rec)
        ["raw_vendor"] (fun _ => "_raw_vendor") = none := by
      unfold findMatch
      rw [List.find?_eq_none]
      intro x hx
      rcases List.mem_map.mp hx with ⟨v, hv, rfl⟩
      have hL : getCol (vendorsPrep rec) "_raw_vendor" = pyStrip (getCol rec "Vendor") := by
        unfold vendorsPrep
        rw [getCol_setCol_self]
      have hR : getCol (prepRefCols vendorsRefCols v) "raw_vendor"
          = pyStrip (getCol v "raw_vendor") :=
        getCol_prepRef_mem vendorsRefCols v "raw_vendor" (by decide) (by decide)
      simp only [List.all_cons, List.all_nil, Bool.and_true, hL, hR]
      simp only [beq_iff_eq]
      exact fun hh => hm v hv (hh ▸ rfl)
    have hjoined : vendorsJoined refRows rec
        = applyOutputs vendorsOutputs [] (vendorsPrep rec) := by
      unfold vendorsJoined
      rw [hfind]
      rfl
    have hprepb : pyStrip (getCol (vendorsPrep rec) "Vendor_clean") = "" := by
      unfold vendorsPrep
      rw [getCol_setCol_ne _ _ _ _ (by decide), getCol_ensureCols]
      exact hblank
    have hblankF : pyStrip (getCol (vendorsJoined refRows rec) "Vendor_clean") = "" := by
      rw [hjoined]
      exact applyOutputs_empty_blank vendorsOutputs (vendorsPrep rec) "Vendor_clean" hprepb
    constructor
    · have h1 : (vendors_map refRows rec).1
          = setCol (vendorsJoined refRows rec) "Vendor_clean" "_Placeholder" := by
        simp only [vendors_map, if_pos hblankF]
      rw [h1, getCol_setCol_self]
    · have h2 : (vendors_map refRows rec).2
          = [qa_event (vendorsJoined refRows rec) "Vendor" "vendor_unmapped"
               (getCol (vendorsJoined refRows rec) "Vendor") "_Placeholder"
               "Partnerships" "P2"] := by
        simp only [vendors_map, if_pos hblankF]
      rw [h2]
      exact ⟨_, List.mem_singleton_self _, rfl, rfl⟩

theorem c4_amended_no_match_witness :
    (pyStrip (getCol (brands_map [["raw_brand"]] [("brand_clean", "Brand_clean")] c3Ref
        [("Brand", "nomatch")]).1 "Brand_clean") = "" ∧
     ∃ ev ∈ (brands_map [["raw_brand"]] [("brand_clean", "Brand_clean")] c3Ref
        [("Brand", "nomatch")]).2,
       ev.issueType = "brand_unmapped" ∧ ev.priority = "P2") ∧
    (getCol (campaigns_map [["raw_campaign"]] [("campaign_clean", "Campaign_clean")]
        [[("raw_campaign", "xyz"), ("campaign_clean", "XYZ")]]
        [("Campaign Name", "Unknown Push")]).1 "Campaign_clean"
       = getCol [("Campaign Name", "Unknown Push")] "Campaign Name" ∧
     ∃ ev ∈ (campaigns_map [["raw_campaign"]] [("campaign_clean", "Campaign_clean")]
        [[("raw_campaign", "xyz"), ("campaign_clean", "XYZ")]]
        [("Campaign Name", "Unknown Push")]).2,
       ev.issueType = "campaign_unmapped" ∧ ev.priority = "P3") ∧
    (getCol (vendors_map [[("raw_vendor", "other")]] [("Vendor", "zzz")]).1 "Vendor_clean"
       = "_Placeholder" ∧
     ∃ ev ∈ (vendors_map [[("raw_vendor", "other")]] [("Vendor", "zzz")]).2,
       ev.issueType = "vendor_unmapped" ∧ ev.suggested = "_Placeholder") :=
  ⟨c4_amended_no_match.1 [["raw_brand"]] [("brand_clean", "Brand_clean")] c3Ref
     [("Brand", "nomatch")] (by decide) (by decide) (by decide) (by decide),
   c4_amended_no_match.2.1 [["raw_campaign"]] [("campaign_clean", "Campaign_clean")]
     [[("raw_campaign", "xyz"), ("campaign_clean", "XYZ")]]
     [("Campaign Name", "Unknown Push")] (by decide) (by decide) (by decide) (by decide)
     (by decide),
   c4_amended_no_match.2.2 [[("raw_vendor", "other")]] [("Vendor", "zzz")]
     (by decide) (by decide)⟩

/-! ## Claim C5 — FX missing-rate handling -/

theorem fxInner_zero (cells0 : Cells) (mapping : List (String × String)) :
    ∀ cs : Cells,
    (∀ c, cs.lookup c = cells0.lookup c ∨ cs.lookup c = some (Cell.num 0)) →
    ∀ c, ((mapping.foldl (fun cs2 lp => if hasCol cs2 lp.1
        then setCell cs2 lp.2 (Cell.num ((toNumericCell (getCell cs2 lp.1)).getD 0 * 0))
        else cs2) cs).lookup c = cells0.lookup c
      ∨ (mapping.foldl (fun cs2 lp => if hasCol cs2 lp.1
        then setCell cs2 lp.2 (Cell.num ((toNumericCell (getCell cs2 lp.1)).getD 0 * 0))
        else cs2) cs).lookup c = some (Cell.num 0)) := by
  induction mapping with
  | nil => intro cs h c; exact h c
  | cons lp t ih =>
    intro cs h c
    simp only [List.foldl_cons]
    by_cases hc : hasCol cs lp.1
    · rw [if_pos hc]
      apply ih
      intro c'
      by_cases he : c' = lp.2
      · subst he
        right
        rw [setCell, lookup_assocSet_self, mul_zero]
      · rw [setCell, lookup_assocSet_ne _ _ _ _ he]
        exact h c'
    · rw [if_neg hc]
      exact ih cs h c

theorem fxOuter_zero (cells0 : Cells) (pairs : List (String × List (String × String))) :
    ∀ cs : Cells,
    (∀ c, cs.lookup c = cells0.lookup c ∨ cs.lookup c = some (Cell.num 0)) →
    ∀ c, ((pairs.foldl (fun cs p => p.2.foldl (fun cs2 lp => if hasCol cs2 lp.1
        then setCell cs2 lp.2 (Cell.num ((toNumericCell (getCell cs2 lp.1)).getD 0 * 0))
        else cs2) cs) cs).lookup c = cells0.lookup c
      ∨ (pairs.foldl (fun cs p => p.2.foldl (fun cs2 lp => if hasCol cs2 lp.1
        then setCell cs2 lp.2 (Cell.num ((toNumericCell (getCell cs2 lp.1)).getD 0 * 0))
        else cs2) cs) cs).lookup c = some (Cell.num 0)) := by
  induction pairs with
  | nil => intro cs h c; exact h c
  | cons p t ih =>
    intro cs h c
    simp only [List.foldl_cons]
    exact ih _ (fxInner_zero cells0 p.2 cs h) c

/-- Concrete inputs for the C5 theorems: an empty rate table, one
configured EUR pair, a record with a parseable local monetary value. -/
def c5Pairs : List (String × List (String × String)) :=
  [("eur", [("Net Media Cost (Local)", "Net_Media_EUR")])]

def c5Rec : FxRec :=
  ⟨"DK", "DKK", "2024", [("Net Media Cost (Local)", Cell.str "100")]⟩

/-- C5 counterexample: with no matching FX rate, the derived converted
column `Net_Media_EUR` is **numeric zero** — not a non-numeric missing
value — because the derive step computes with the rate `fillna(0)`;
the `fx_missing` event is appended all the same. -/
theorem c5_counterexample :
    getCell (fx_merge_and_derive [] c5Pairs c5Rec).cells "Net_Media_EUR" = Cell.num 0
    ∧ isNumOrNull (Cell.num 0) = true
    ∧ (fx_merge_and_derive [] c5Pairs c5Rec).events ≠ [] := by
  refine ⟨?_, rfl, by decide⟩
  have h : getCell (fx_merge_and_derive [] c5Pairs c5Rec).cells "Net_Media_EUR"
      = Cell.num ((toNumericCell (Cell.str "100")).getD 0 * 0) := rfl
  rw [h, mul_zero]

/-- C5 amended: for a record whose (market, upper-cased currency, year)
key has no entry in the rate table, the rate columns `fx_to_eur` /
`fx_to_dkk` are left `NaN` and a high-priority `fx_missing` event is
appended; but the derived converted monetary columns are **not** left
non-numeric: every column the derive step writes is computed with the
missing rate treated as `0` and therefore equals numeric `0`. -/
theorem c5_amended_fx_missing (fxTable : List FxRate)
    (pairs : List (String × List (String × String))) (rec : FxRec)
    (hmiss : fxTable.find? (fun f =>
        pyStrip f.market == pyStrip rec.market &&
        upperStr (pyStrip f.currency) == upperStr (pyStrip rec.currency) &&
        pyStrip f.fx_year == pyStrip rec.fxYear) = none) :
    (fx_merge_and_derive fxTable pairs rec).fxToEur? = none ∧
    (fx_merge_and_derive fxTable pairs rec).fxToDkk? = none ∧
    (∃ ev ∈ (fx_merge_and_derive fxTable pairs rec).events,
       ev.issueType = "fx_missing" ∧ ev.priority = "P1") ∧
    (∀ c, (fx_merge_and_derive fxTable pairs rec).cells.lookup c
            = rec.cells.lookup c
        ∨ (fx_merge_and_derive fxTable pairs rec).cells.lookup c
            = some (Cell.num 0)) := by
  have hred : fx_merge_and_derive fxTable pairs rec
      = { fxToEur? := none
          fxToDkk? := none
          cells := pairs.foldl (fun cs p => p.2.foldl (fun cs2 lp => if hasCol cs2 lp.1
            then setCell cs2 lp.2
              (Cell.num ((toNumericCell (getCell cs2 lp.1)).getD 0 * 0))
            else cs2) cs) rec.cells
          events := [fx_missing_event rec] } := by
    simp only [fx_merge_and_derive, hmiss, Option.none_bind, Option.isNone_none,
      Bool.or_self, if_true, ite_self, Option.getD_none]
  rw [hred]
  refine ⟨rfl, rfl, ⟨_, List.mem_singleton_self _, rfl, rfl⟩, ?_⟩
  exact fxOuter_zero rec.cells pairs rec.cells (fun c => Or.inl rfl)

theorem c5_amended_fx_missing_witness :
    (([] : List FxRate).find? (fun f =>
        pyStrip f.market == pyStrip c5Rec.market &&
        upperStr (pyStrip f.currency) == upperStr (pyStrip c5Rec.currency) &&
        pyStrip f.fx_year == pyStrip c5Rec.fxYear) = none) ∧
    ((fx_merge_and_derive [] c5Pairs c5Rec).fxToEur? = none ∧
     (fx_merge_and_derive [] c5Pairs c5Rec).fxToDkk? = none ∧
     (∃ ev ∈ (fx_merge_and_derive [] c5Pairs c5Rec).events,
        ev.issueType = "fx_missing" ∧ ev.priority = "P1") ∧
     (∀ c, (fx_merge_and_derive [] c5Pairs c5Rec).cells.lookup c
             = c5Rec.cells.lookup c
         ∨ (fx_merge_and_derive [] c5Pairs c5Rec).cells.lookup c
             = some (Cell.num 0))) :=
  ⟨rfl, c5_amended_fx_missing [] c5Pairs c5Rec rfl⟩
